import Mathlib

/-! # easyproxy: the `socket` package

A shallow embedding of `socket/proxy.go`, `socket/filter.go`, `socket/server.go`
and `socket/forward.go`.

Conventions of the embedding

* A Go `byte` is a `Nat`, and `byte` arithmetic is written with an explicit
  `% 256`; the theorems hold for every list of naturals, so for every list of
  bytes.
* A Go `[]byte` and a Go `string` are both `Bytes`, a list of byte values; the
  nil slice and the empty string are `[]`.
* A connection (`io.Reader` and `io.Writer`) is a `Stream`: the bytes its peer
  will still send (then end of file), the bytes written to it so far, and a plan
  that says which of the coming `Write` calls fail.
* Functions of Go's standard library whose precise result does not matter
  (`net.ParseIP`, `net.IP.String`, the default dialer) are parameters, gathered
  in `Env`; those whose result decides a property (`net.IP.To4`, `io.ReadFull`,
  `strconv.ParseInt`, `net.SplitHostPort`) are written out after their source.
* Goroutines are a step relation: a state, and one atomic action of one
  goroutine at a time, in any order.
-/

namespace socket

/-! ## Bytes, errors, streams -/

/-- Go `[]byte` or `string`: a list of byte values. -/
abbrev Bytes := List Nat

/-- Bytes of an ASCII literal. -/
def ascii (s : String) : Bytes := s.toList.map Char.toNat

/-- The error values of `proxy.go` (lines 106-113), the two `io` sentinels that
`io.ReadFull` returns, a failed `Write`, a failed dial, `ErrServerClosed` of
`server.go`, the two errors of `strconv`, and `errors.New` with a message. -/
inductive Error where
  | ERR_VERSION
  | ERR_METHOD
  | ERR_CMD
  | ERR_READ_FAILED
  | ERR_ADDRESS_TYPE
  | ERR_AUTH_FAILED
  | EOF
  | ErrUnexpectedEOF
  | ErrWrite
  | ErrDial
  | ErrServerClosed
  | ErrSyntax
  | ErrRange
  | new (msg : String)
  deriving DecidableEq, Repr

/-- A connection seen from the handler: `input` is what the peer still sends
before end of file, `output` is what has been written to the peer, and `wplan`
gives the outcome of the coming `Write` calls, one entry per call: `none` (or an
exhausted plan) is a full write with a nil error, `some k` is a write that
delivers at most `k` bytes and returns an error. -/
structure Stream where
  input : Bytes
  output : Bytes
  wplan : List (Option Nat)
  deriving DecidableEq, Repr

/-- A reader over the given bytes (for instance a `bytes.Reader`). -/
def Stream.ofInput (bs : Bytes) : Stream := ⟨bs, [], []⟩

/-- `io.ReadFull(r, buf)` with `len(buf) = n`: the `n` bytes when the stream has
them; otherwise everything is consumed and the error is `io.EOF` when nothing
was read and `io.ErrUnexpectedEOF` otherwise. A zero-length buffer reads
nothing and succeeds. -/
def readFull (r : Stream) (n : Nat) : Except Error Bytes × Stream :=
  if n ≤ r.input.length then
    (.ok (r.input.take n), { r with input := r.input.drop n })
  else if r.input = [] then
    (.error .EOF, r)
  else
    (.error .ErrUnexpectedEOF, { r with input := [] })

/-- `io.CopyN(ioutil.Discard, r, n)`: consumes exactly `n` bytes, or everything
and fails with `io.EOF` when fewer are left. The bytes are thrown away. -/
def copyNDiscard (r : Stream) (n : Nat) : Option Error × Stream :=
  if n ≤ r.input.length then
    (none, { r with input := r.input.drop n })
  else
    (some .EOF, { r with input := [] })

/-- One call `w.Write(buf)`: consumes one entry of the write plan. -/
def Stream.write (w : Stream) (buf : Bytes) : Option Error × Stream :=
  match w.wplan with
  | [] => (none, { w with output := w.output ++ buf })
  | none :: rest => (none, { w with output := w.output ++ buf, wplan := rest })
  | some k :: rest =>
    (some .ErrWrite, { w with output := w.output ++ buf.take k, wplan := rest })

/-! ## `net.IP` helpers (Go standard library, `net/ip.go`) -/

/-- Go `net.IP`, a byte slice; `[]` is the nil IP. -/
abbrev NetIP := Bytes

/-- The twelve leading bytes of an IPv4-mapped IPv6 address. -/
def v4InV6Head : Bytes := [0, 0, 0, 0, 0, 0, 0, 0, 0, 0, 255, 255]

/-- `net.IP.To4`: a 4-byte IP as it is, the last four bytes of a 16-byte
IPv4-mapped IP, and nil otherwise. -/
def NetIP.To4 (ip : NetIP) : NetIP :=
  if ip.length = 4 then ip
  else if ip.length = 16 ∧ ip.take 12 = v4InV6Head then ip.drop 12
  else []

/-- `net.IP.To16`: a 4-byte IP in its IPv4-mapped form, a 16-byte IP as it is,
and nil otherwise. -/
def NetIP.To16 (ip : NetIP) : NetIP :=
  if ip.length = 4 then v4InV6Head ++ ip
  else if ip.length = 16 then ip
  else []

/-- `net.IP.Equal`: the same bytes, or a 4-byte IP against its 16-byte
IPv4-mapped form. -/
def NetIP.Equal (ip x : NetIP) : Bool :=
  if ip.length = x.length then decide (ip = x)
  else if ip.length = 4 ∧ x.length = 16 then
    decide (x.take 12 = v4InV6Head) && decide (ip = x.drop 12)
  else if ip.length = 16 ∧ x.length = 4 then
    decide (ip.take 12 = v4InV6Head) && decide (ip.drop 12 = x)
  else false

/-! ## `Address` and its codec (`proxy.go`, lines 115-279) -/

/-- The constants of `proxy.go`, lines 99-104 and 117-121. -/
def Socks5Version : Nat := 5
def MethodNoAuth : Nat := 0
def CmdConnect : Nat := 1
def AddressType.IPv4 : Nat := 1
def AddressType.DomainName : Nat := 3
def AddressType.IPv6 : Nat := 4

/-- The struct `Address` (lines 123-129). `AddressType` is a `byte`. -/
structure Address where
  NetworkType : Bytes
  DomainName : Bytes
  IP : NetIP
  Port : Int
  AddressType : Nat
  deriving DecidableEq, Repr

/-- The zero value `Address{}`. -/
def Address.zero : Address := ⟨[], [], [], 0, 0⟩

/-- How a call ended: a nil error, a non-nil error, or a run-time panic. -/
inductive Ret where
  | ok
  | err (e : Error)
  | panic (msg : String)
  deriving DecidableEq, Repr

/-- `binary.BigEndian.Uint16` of a two-byte slice, as an `int`. -/
def uint16BE (hi lo : Nat) : Int := ((hi * 256 + lo : Nat) : Int)

/-- `binary.BigEndian.PutUint16(port[:], uint16(p))` for an `int` p. -/
def putUint16BE (p : Int) : Bytes :=
  let v := (p % 65536).toNat
  [v / 256, v % 256]

/-- `Address.From` (lines 199-254). `parseIP` is `net.ParseIP` (nil is `[]`).
Returns how the call ended, the receiver as the call left it, and the reader.
In the `DomainName` case `length` is a `byte`, so `length+2` is computed modulo
256 (line 232), and the slice expressions of lines 238 and 249 panic when their
upper bound exceeds the capacity of `buf`. -/
def Address.From (parseIP : Bytes → NetIP) (a : Address) (r : Stream) :
    Ret × Address × Stream :=
  match readFull r 1 with
  | (.error e, r1) => (.err e, a, r1)
  | (.ok tag, r1) =>
    let a1 := { a with AddressType := tag.headD 0 }
    if a1.AddressType = AddressType.IPv4 then
      match readFull r1 6 with
      | (.error _, r2) => (.err (.new "failed to read IPv4"), a1, r2)
      | (.ok buf, r2) =>
        (.ok, { a1 with IP := buf.take 4, Port := uint16BE (buf.getD 4 0) (buf.getD 5 0) }, r2)
    else if a1.AddressType = AddressType.IPv6 then
      match readFull r1 18 with
      | (.error _, r2) => (.err (.new "failed to read IPv6"), a1, r2)
      | (.ok buf, r2) =>
        (.ok, { a1 with IP := buf.take 16, Port := uint16BE (buf.getD 16 0) (buf.getD 17 0) }, r2)
    else if a1.AddressType = AddressType.DomainName then
      match readFull r1 1 with
      | (.error _, r2) => (.err (.new "failed to read domain name length"), a1, r2)
      | (.ok lbuf, r2) =>
        let length := lbuf.headD 0
        let n := (length + 2) % 256
        match readFull r2 n with
        | (.error _, r3) => (.err (.new "failed to read domain name"), a1, r3)
        | (.ok buf, r3) =>
          if n < length then
            (.panic "slice bounds out of range", a1, r3)
          else
            let host := buf.take length
            let ip := parseIP host
            let a2 :=
              if ip ≠ [] then
                if NetIP.To4 ip ≠ [] then { a1 with IP := ip, AddressType := AddressType.IPv4 }
                else { a1 with IP := ip, AddressType := AddressType.IPv6 }
              else { a1 with DomainName := host }
            (.ok, { a2 with Port := uint16BE (buf.getD length 0) (buf.getD (length + 1) 0) }, r3)
    else
      (.err .ERR_ADDRESS_TYPE, a1, r1)

/-- `Address.To` (lines 256-279). The result of the length write of line 263 is
dropped, as in the source; `byte(len(a.DomainName))` is the length modulo 256. -/
def Address.To (a : Address) (w : Stream) : Option Error × Stream :=
  match w.write [a.AddressType] with
  | (some e, w1) => (some e, w1)
  | (none, w1) =>
    let step : Option Error × Stream :=
      if a.AddressType = AddressType.DomainName then
        (w1.write [a.DomainName.length % 256]).2.write a.DomainName
      else if a.AddressType = AddressType.IPv4 then w1.write (NetIP.To4 a.IP)
      else if a.AddressType = AddressType.IPv6 then w1.write (NetIP.To16 a.IP)
      else (some .ERR_ADDRESS_TYPE, w1)
    match step with
    | (some e, w2) => (some e, w2)
    | (none, w2) => w2.write (putUint16BE a.Port)

/-- The bytes `Address.To` writes on a writer that never fails. -/
def Address.encode (a : Address) : Bytes := (a.To (Stream.ofInput [])).2.output

/-- The variants of an `Address` that the codec is meant for: an IPv4 address
whose IP has a 4-byte form, an IPv6 address with a 16-byte IP, or a domain name
of at most `maxLen` bytes that `net.ParseIP` does not read as an IP; the port is
in 0..65535, and the field of the other variant is unset. -/
def Address.Valid (parseIP : Bytes → NetIP) (maxLen : Nat) (a : Address) : Prop :=
  0 ≤ a.Port ∧ a.Port ≤ 65535 ∧
  ((a.AddressType = AddressType.IPv4 ∧ NetIP.To4 a.IP ≠ [] ∧ a.DomainName = []) ∨
   (a.AddressType = AddressType.IPv6 ∧ a.IP.length = 16 ∧ a.DomainName = []) ∨
   (a.AddressType = AddressType.DomainName ∧ a.DomainName.length ≤ maxLen ∧
      parseIP a.DomainName = [] ∧ a.IP = []))

/-- The domain name of 254 bytes `aaa...a`, with port 80. -/
def longDomain : Address := ⟨[], List.replicate 254 97, [], 80, AddressType.DomainName⟩


/-! ## The SOCKS5 handshake (`proxy.go`, lines 15-97 and 131-141) -/

/-- What a dial function returns: the target connection (named by a number) or
an error. -/
abbrev DialResult := Except Error Nat

/-- A dial function `func(ctx, network, addr) (net.Conn, error)`, as a function
of the network and the address text. -/
abbrev DialFunc := Bytes → Bytes → DialResult

/-- The standard-library functions the handshake relies on: `net.ParseIP`,
`net.IP.String`, and `net.Dialer.DialContext` of the zero dialer. -/
structure Env where
  parseIP : Bytes → NetIP
  ipString : NetIP → Bytes
  netDial : DialFunc

/-- The struct `Proxy` (lines 15-18); a nil `Dial` is `none`. -/
structure Proxy where
  Dial : Option DialFunc

/-- Decimal text of an `int`, the `%d` verb of `fmt.Sprintf`. -/
def itoa (n : Int) : Bytes := ascii (toString n)

/-- `Address.String` (lines 131-141). -/
def Address.String (ipString : NetIP → Bytes) (a : Address) : Bytes :=
  if a.AddressType = AddressType.IPv4 then
    ipString a.IP ++ ascii ":" ++ itoa a.Port
  else if a.AddressType = AddressType.IPv6 then
    ascii "[" ++ ipString a.IP ++ ascii "]:" ++ itoa a.Port
  else if a.AddressType = AddressType.DomainName then
    a.DomainName ++ ascii ":" ++ itoa a.Port
  else []

/-- What one call of `Socks5Connect` did, up to its return or, when line 96 was
reached, up to the hand-over of the two connections to the relay (what the
relay then reads and writes on the client connection is not part of it, see
`Relay`). `socket` is the client connection at that point, `err` the local
`err`, `addr` the address decoded from the request, `dials` the calls made to
the dial function in order (network and address), `reply` the 3-byte buffer
handed to `socket.Write` at line 86 when that line was reached, `relay` the
target connection handed to the relay of line 96 when that line was reached,
and `panicked` whether the call ended in a panic. -/
structure Run where
  socket : Stream
  err : Option Error
  addr : Address
  dials : List (Bytes × Bytes)
  reply : Option Bytes
  relay : Option Nat
  panicked : Bool
  deriving DecidableEq, Repr

/-- A return before any address was decoded. -/
def Run.early (s : Stream) (e : Error) : Run :=
  ⟨s, some e, Address.zero, [], none, none, false⟩

/-- Lines 67-71: `proxy.Dial`, or `DialContext` of the zero `net.Dialer` when it
is nil. -/
def Proxy.dialFunc (env : Env) (proxy : Proxy) : DialFunc :=
  match proxy.Dial with
  | some d => d
  | none => env.netDial

/-- Lines 67-82: the choice of the dial function, the command check and the
dial. Gives the reply code stored in `buf[1]`, the local `err`, the target
connection, and the dial calls made. -/
def Proxy.connect (env : Env) (proxy : Proxy) (rep : Nat) (addr : Address) :
    Nat × Option Error × Option Nat × List (Bytes × Bytes) :=
  let dial := proxy.dialFunc env
  if rep ≠ CmdConnect then
    (7, some .ERR_CMD, none, [])
  else
    match dial (ascii "tcp") (addr.String env.ipString) with
    | .error e => (3, some e, none, [(ascii "tcp", addr.String env.ipString)])
    | .ok conn => (0, none, some conn, [(ascii "tcp", addr.String env.ipString)])

/-- Lines 51-96 of `Socks5Connect`: the request header, the target address, the
dial, the reply, and the hand-over to the relay. The run ends at the hand-over
of line 96: the call itself returns only when the relay built by
`NewForwardHandler` returns, and until then the relay copies between the two
connections. -/
def Proxy.socks5Request (env : Env) (proxy : Proxy) (socket : Stream) : Run :=
  match readFull socket 3 with
  | (.error _, s1) => Run.early s1 .ERR_READ_FAILED
  | (.ok buf, s1) =>
    if buf.getD 0 0 ≠ Socks5Version then Run.early s1 .ERR_VERSION
    else
      let rep := buf.getD 1 0
      match Address.From env.parseIP Address.zero s1 with
      | (.err e, addr, s2) => ⟨s2, some e, addr, [], none, none, false⟩
      | (.panic _, addr, s2) => ⟨s2, none, addr, [], none, none, true⟩
      | (.ok, addr, s2) =>
        match proxy.connect env rep addr with
        | (code, err, conn, dials) =>
          let reply := [buf.getD 0 0, code, buf.getD 2 0]
          match s2.write reply with
          | (some _, s3) => ⟨s3, err, addr, dials, some reply, none, false⟩
          | (none, s3) =>
            match addr.To s3 with
            | (some _, s4) => ⟨s4, err, addr, dials, some reply, none, false⟩
            | (none, s4) =>
              if code ≠ 0 then ⟨s4, err, addr, dials, some reply, none, false⟩
              else ⟨s4, err, addr, dials, some reply, conn, false⟩

/-- `Proxy.Socks5Connect` (lines 27-97): lines 28-49 here, the rest in
`Proxy.socks5Request`. -/
def Proxy.Socks5Connect (env : Env) (proxy : Proxy) (socket : Stream) : Run :=
  match readFull socket 2 with
  | (.error _, s1) => Run.early s1 .ERR_READ_FAILED
  | (.ok buf, s1) =>
    if buf.getD 0 0 ≠ Socks5Version then Run.early s1 .ERR_VERSION
    else
      match copyNDiscard s1 (buf.getD 1 0) with
      | (some _, s2) => Run.early s2 .ERR_METHOD
      | (none, s2) =>
        match s2.write [buf.getD 0 0, MethodNoAuth] with
        | (some _, s3) => Run.early s3 .ERR_AUTH_FAILED
        | (none, s3) => proxy.socks5Request env s3

/-- An environment for examples: nothing parses as an IP, an IP prints as its
bytes, and the default dialer refuses. -/
def Env.sample : Env := ⟨fun _ => [], fun ip => ip, fun _ _ => .error .ErrDial⟩

/-- A proxy whose dial function connects to anything, giving connection 7. -/
def Proxy.accepting : Proxy := ⟨some (fun _ _ => .ok 7)⟩

/-- A proxy whose dial function always fails. -/
def Proxy.refusing : Proxy := ⟨some (fun _ _ => .error .ErrDial)⟩

/-- A client's bytes: greeting with methods 0 and 2, then CONNECT (reserved
byte 9) to 10.0.0.1:80. -/
def clientConnect : Bytes := [5, 2, 0, 2, 5, 1, 9, 1, 10, 0, 0, 1, 0, 80]

/-- A client's bytes: greeting with one method, then BIND (command 2, reserved
byte 9) to 10.0.0.1:80. -/
def clientBind : Bytes := [5, 1, 0, 5, 2, 9, 1, 10, 0, 0, 1, 0, 80]

/-- No `Write` call of the plan fails. -/
def allWritesOk (w : List (Option Nat)) : Prop := ∀ x ∈ w, x = none

/-- The next `Write` call does not fail. -/
def nextWriteOk (w : List (Option Nat)) : Prop := ∀ k, w.head? ≠ some (some k)

/-- The address that `Address.From` leaves in a fresh `Address{}` when it reads
the given bytes. -/
def decodeAddress (env : Env) (bs : Bytes) : Address :=
  (Address.From env.parseIP Address.zero (Stream.ofInput bs)).2.1

/-- A client's bytes after its greeting: BIND (command 2, reserved byte 9) to
10.0.0.1:80. -/
def bindRequest : Bytes := [5, 2, 9, 1, 10, 0, 0, 1, 0, 80]

/-! ## The filtering listener (`filter.go`) -/

/-- One return of the wrapped `Listener.Accept`: the pair `(conn, err)`, a
connection being named by a number and nil being `none`. -/
structure AcceptResult where
  conn : Option Nat
  err : Option Error
  deriving DecidableEq, Repr

/-- The struct `Filter` (lines 8-11): `Listener` is given by the results its
coming `Accept` calls return, in order; `Filter` is the predicate. -/
structure Filter where
  Listener : List AcceptResult
  Filter : Nat → Bool

/-- The loop of `Filter.Accept` (lines 14-26) over the results of the wrapped
listener, started with the log `closed` of the `Close` calls made on
connections so far. Gives the returned pair, the results the wrapped listener
has left, and the log; `none` when the wrapped listener has no further result,
that is, while the loop is still blocked in `i.Listener.Accept()`. -/
def Filter.acceptLoop (pred : Nat → Bool) :
    List AcceptResult → List Nat → Option (AcceptResult × List AcceptResult × List Nat)
  | [], _ => none
  | r :: rest, closed =>
    if r.err ≠ none then some (r, rest, closed)
    else
      match r.conn with
      | none => some (r, rest, closed)
      | some c =>
        if pred c then some (r, rest, closed)
        else Filter.acceptLoop pred rest (closed ++ [c])

/-- `Filter.Accept` (lines 13-27): the returned pair, the filter with what its
wrapped listener has left, and the log of `Close` calls. -/
def Filter.Accept (i : socket.Filter) (closed : List Nat) :
    Option (AcceptResult × socket.Filter × List Nat) :=
  match Filter.acceptLoop i.Filter i.Listener closed with
  | none => none
  | some (r, rest, log) => some (r, { i with Listener := rest }, log)

/-- A result at which the loop of `Filter.Accept` returns: an error, a nil
connection, or a connection the predicate accepts. -/
def AcceptResult.stops (pred : Nat → Bool) (r : AcceptResult) : Prop :=
  r.err ≠ none ∨ r.conn = none ∨ ∃ c, r.conn = some c ∧ pred c = true

/-- A result the loop passes over: no error and a connection the predicate
rejects. -/
def AcceptResult.rejected (pred : Nat → Bool) (r : AcceptResult) : Prop :=
  r.err = none ∧ ∃ c, r.conn = some c ∧ pred c = false

/-- A predicate for examples: only connection 8 is allowed. -/
def onlyEight (c : Nat) : Bool := decide (c = 8)

/-- Two accepted connections that `onlyEight` rejects. -/
def outsiders : List AcceptResult := [⟨some 3, none⟩, ⟨some 5, none⟩]

/-- The accepted connection that `onlyEight` allows. -/
def insider : AcceptResult := ⟨some 8, none⟩

/-! ## The connection server (`server.go`): one call of `Serve` -/

/-- The struct `Server` (lines 23-30) together with what its methods act on.
A listener is named by the pointer under which `Serve` tracks it. `listeners`
holds the keys of the map, `open_` is the field `open`, `closed` is the field
`closed` read through `isClosed`; `BaseContext` is `none` when the field is nil
and otherwise maps a listener to a context or to nil (`none`); `closeErr` is
what `Close` of a listener returns; `rangeOrder` is the order in which a `range`
over the map visits its keys, which Go leaves open; `closeCalls` logs the
`Close` calls made on listeners; `spawned` logs the connections for which
`go server.serve` ran. -/
structure Server where
  BaseContext : Option (Nat → Option Nat)
  listeners : List Nat
  open_ : Int
  closed : Bool
  closeErr : Nat → Option Error
  rangeOrder : List Nat → List Nat
  closeCalls : List Nat
  spawned : List Nat

/-- `Server.isClosed` (lines 110-112). -/
def Server.isClosed (server : Server) : Bool := server.closed

/-- `Server.trackListener` (lines 32-48), run under the mutex. -/
def Server.trackListener (server : Server) (listener : Nat) (track : Bool) : Bool × Server :=
  if track then
    if server.isClosed then (false, server)
    else (true, { server with listeners := listener :: server.listeners.filter (· ≠ listener) })
  else
    (true, { server with
      listeners := server.listeners.filter (· ≠ listener)
      closeCalls := server.closeCalls ++ [listener] })

/-- The keys of the listener map in the order the `range` of line 119 visits
them: the order `rangeOrder` gives when it is a rearrangement of the keys. -/
def Server.visited (server : Server) : List Nat :=
  if (server.rangeOrder server.listeners).isPerm server.listeners then
    server.rangeOrder server.listeners
  else server.listeners

/-- `Server.Close` (lines 114-127): every tracked listener closed, in the order
of the `range`, and dropped; the error returned is the first close error met in
that order. -/
def Server.Close (server : Server) : Option Error × Server :=
  ((server.visited.filterMap server.closeErr).head?,
   { server with
      closed := true
      closeCalls := server.closeCalls ++ server.visited
      listeners := [] })

/-- What happens while `Serve` sits in its accept loop: `Accept` returns a
connection, a temporary error or another error, or, while `Accept` blocks,
another goroutine runs `Close` or (from another `Serve` call) `trackListener`. -/
inductive AcceptEvent where
  | conn (c : Nat)
  | temporary
  | failure (e : Error)
  | envClose
  | envTrack (listener : Nat) (track : Bool)

/-- The loop of `Serve` (lines 69-83) over the events that occur; `none` while
the loop has not returned. -/
def Server.acceptLoop (server : Server) : List AcceptEvent → Option (Error × Server)
  | [] => none
  | .conn c :: rest =>
    Server.acceptLoop { server with spawned := server.spawned ++ [c] } rest
  | .temporary :: rest => Server.acceptLoop server rest
  | .failure e :: _ =>
    if server.isClosed then some (.ErrServerClosed, server) else some (e, server)
  | .envClose :: rest => Server.acceptLoop server.Close.2 rest
  | .envTrack l t :: rest => Server.acceptLoop (server.trackListener l t).2 rest

/-- `Server.Serve` (lines 50-84) with its deferred calls: how the call ended and
the state it left; `none` while it has not returned. -/
def Server.Serve (server : Server) (listener : Nat) (events : List AcceptEvent) :
    Option (Ret × Server) :=
  match server.trackListener listener true with
  | (false, s1) => some (.err .ErrServerClosed, s1)
  | (true, s1) =>
    let nilContext : Bool := match s1.BaseContext with
      | none => false
      | some f => (f listener).isNone
    if nilContext then
      some (.panic "ServeContext returned a nil context", (s1.trackListener listener false).2)
    else
      match Server.acceptLoop { s1 with open_ := s1.open_ + 1 } events with
      | none => none
      | some (e, s3) =>
        some (.err e, (Server.trackListener { s3 with open_ := s3.open_ - 1 } listener false).2)

/-- A fresh server, and the same server after `Close`. -/
def Server.fresh : Server := ⟨none, [], 0, false, fun _ => none, List.reverse, [], []⟩
def Server.afterClose : Server := Server.fresh.Close.2

/-! ## The connection server: goroutines interleaved

The counter `open` is shared by every call of `Serve`, every goroutine started
by `go server.serve`, and `Shutdown`. The state below keeps the counter, the
closed flag, and where each call of `Serve` and each handler goroutine stands;
an action is one atomic step of one goroutine. -/

/-- Where a call of `Serve` stands: called (before line 52), registered (line
52 passed, line 65 not yet run), in the accept loop (line 65 run), or returned
(the deferred decrement of line 66 run). -/
inductive ServePc where
  | called
  | tracked
  | accepting
  | returned
  deriving DecidableEq, Repr

/-- Where a goroutine started by `go server.serve` (line 82) stands: dispatched
(created, line 87 not yet run), running (line 87 run, the handler at work), or
returned (the deferred decrement of line 88 run). -/
inductive HandlerPc where
  | dispatched
  | running
  | returned
  deriving DecidableEq, Repr

/-- The shared state of a server and its goroutines. -/
structure Sys where
  open_ : Int
  closed : Bool
  serves : List ServePc
  handlers : List HandlerPc
  deriving DecidableEq, Repr

/-- One atomic step: a goroutine calls `Serve`; call `i` of `Serve` runs line
52, line 65, line 82 after a successful `Accept`, or returns on an accept error
(running its deferred calls); handler goroutine `j` runs line 87, or returns
(running the deferred decrement of line 88, also after a panic); or some
goroutine runs `Close`. -/
inductive Action where
  | callServe
  | track (i : Nat)
  | count (i : Nat)
  | dispatch (i : Nat)
  | serveReturn (i : Nat)
  | handlerStart (j : Nat)
  | handlerReturn (j : Nat)
  | close
  deriving DecidableEq, Repr

/-- The effect of one action; `none` when the action is not enabled. -/
def Sys.step (s : Sys) : Action → Option Sys
  | .callServe => some { s with serves := s.serves ++ [.called] }
  | .track i =>
    if s.serves[i]? = some .called then
      if s.closed then some { s with serves := s.serves.set i .returned }
      else some { s with serves := s.serves.set i .tracked }
    else none
  | .count i =>
    if s.serves[i]? = some .tracked then
      some { s with open_ := s.open_ + 1, serves := s.serves.set i .accepting }
    else none
  | .dispatch i =>
    if s.serves[i]? = some .accepting then
      some { s with handlers := s.handlers ++ [.dispatched] }
    else none
  | .serveReturn i =>
    if s.serves[i]? = some .accepting then
      some { s with open_ := s.open_ - 1, serves := s.serves.set i .returned }
    else none
  | .handlerStart j =>
    if s.handlers[j]? = some .dispatched then
      some { s with open_ := s.open_ + 1, handlers := s.handlers.set j .running }
    else none
  | .handlerReturn j =>
    if s.handlers[j]? = some .running then
      some { s with open_ := s.open_ - 1, handlers := s.handlers.set j .returned }
    else none
  | .close => some { s with closed := true }

/-- The effect of a sequence of actions. -/
def Sys.run (s : Sys) : List Action → Option Sys
  | [] => some s
  | a :: rest =>
    match s.step a with
    | none => none
    | some s1 => Sys.run s1 rest

/-- A new server: counter 0, not closed, no goroutines. -/
def Sys.init : Sys := ⟨0, false, [], []⟩

/-- The test of `Shutdown` (lines 130-138) after its `Close`: a poll that reads
`open == 0` makes it return nil. -/
def Sys.shutdownReturnsNil (s : Sys) : Bool := s.closed && decide (s.open_ = 0)

/-- An interleaving: `Serve` is called, registers, counts itself, accepts one
connection and starts its goroutine; `Close` runs; `Accept` fails and `Serve`
returns, before the new goroutine has run its first statement. -/
def earlyReturn : List Action :=
  [.callServe, .track 0, .count 0, .dispatch 0, .close, .serveReturn 0]

/-- What the counter counts: the calls of `Serve` that are in their accept loop
and the handler goroutines that have run line 87 and not yet returned. -/
def Sys.counted (s : Sys) : Nat :=
  s.serves.count .accepting + s.handlers.count .running


/-! ## The relay (`forward.go`)

The handler of `NewForwardHandler`, after `open` has succeeded, is three
goroutines around the unbuffered channel `done`: the controller (lines 18-31)
and the two calls of `copy` (lines 36-39). A send on `done` completes only
together with a receive; a receive on the closed channel completes at once. -/

/-- Where a goroutine running `copy` stands: inside `io.Copy` (line 37),
blocked at the receive `<-done` (line 38), or returned. -/
inductive CopyPc where
  | copying
  | waiting
  | returned
  deriving DecidableEq, Repr

/-- The two directions of the relay. -/
inductive Side where
  | toSource
  | toTarget
  deriving DecidableEq, Repr

/-- The state of one relay: whether `source.Done()` is ready (the context is
done), whether `close(done)` has run, the counter `c`, whether the handler has
returned, the number of sends on `done` that have completed, and the two
copies. -/
structure Relay where
  ctxDone : Bool
  closed : Bool
  c : Int
  returned : Bool
  sends : Nat
  toSource : CopyPc
  toTarget : CopyPc
  deriving DecidableEq, Repr

/-- The copy goroutine of a side. -/
def Relay.copy (r : Relay) : Side → CopyPc
  | .toSource => r.toSource
  | .toTarget => r.toTarget

/-- The relay with the copy goroutine of a side moved. -/
def Relay.setCopy (r : Relay) (x : Side) (pc : CopyPc) : Relay :=
  match x with
  | .toSource => { r with toSource := pc }
  | .toTarget => { r with toTarget := pc }

/-- One atomic step: the context becomes done; `io.Copy` of a side returns and
the goroutine reaches `<-done`; the controller's send meets the receive of a
waiting side (the second case of the `select`, lines 26-30); the controller takes
the first case of the `select` (lines 23-25); a waiting side receives from the
closed channel. -/
inductive RelayAction where
  | cancel
  | copyEnds (x : Side)
  | handOver (x : Side)
  | onDone
  | releaseClosed (x : Side)
  deriving DecidableEq, Repr

/-- The effect of one step; `none` when the step is not enabled. -/
def Relay.step (r : Relay) : RelayAction → Option Relay
  | .cancel => some { r with ctxDone := true }
  | .copyEnds x =>
    if r.copy x = .copying then some (r.setCopy x .waiting) else none
  | .handOver x =>
    if r.returned = false ∧ r.closed = false ∧ r.copy x = .waiting then
      some { (r.setCopy x .returned) with
        sends := r.sends + 1
        c := r.c - 1
        returned := decide (r.c - 1 = 0) }
    else none
  | .onDone =>
    if r.returned = false ∧ r.ctxDone = true then
      some { r with closed := true, returned := true }
    else none
  | .releaseClosed x =>
    if r.closed = true ∧ r.copy x = .waiting then some (r.setCopy x .returned) else none

/-- The effect of a sequence of steps. -/
def Relay.run (r : Relay) : List RelayAction → Option Relay
  | [] => some r
  | a :: rest =>
    match r.step a with
    | none => none
    | some r1 => Relay.run r1 rest

/-- The relay right after lines 14-18: both copies started, `c` is 2; the
context may already be done. -/
def Relay.start (ctxDone : Bool) : Relay :=
  ⟨ctxDone, false, 2, false, 0, .copying, .copying⟩

/-- What holds in every state of a relay. -/
def Relay.Inv (r : Relay) : Prop :=
  r.c + (r.sends : Int) = 2 ∧
  (r.closed = true → r.ctxDone = true ∧ r.returned = true) ∧
  (r.returned = true → r.closed = true ∨ r.c = 0) ∧
  (r.returned = false → 0 < r.c) ∧
  (r.closed = false →
    r.sends = (if r.toSource = .returned then 1 else 0) + (if r.toTarget = .returned then 1 else 0))

/-- A run in which one copy is waiting when the context is cancelled. -/
def cancelledRun : List RelayAction := [.copyEnds .toSource, .cancel, .onDone]

/-- The state that `cancelledRun` leads to. -/
def cancelledState : Relay := ⟨true, true, 2, true, 0, .waiting, .copying⟩

/-! ## Addresses from text (`proxy.go`, lines 162-197) -/

/-- Index of the first byte `c` of `s`, as `bytealg.IndexByteString`. -/
def indexByte (s : Bytes) (c : Nat) : Option Nat :=
  if s.indexOf c < s.length then some (s.indexOf c) else none

/-- Index of the last byte `c` of `s`, as `bytealg.LastIndexByteString`. -/
def lastIndexByte (s : Bytes) (c : Nat) : Option Nat :=
  if s.reverse.indexOf c < s.length then some (s.length - 1 - s.reverse.indexOf c) else none

/-- `net.SplitHostPort` of Go's standard library (`net/ipsock.go`): the port
starts after the last colon; a host in brackets ends at the first `]`, which
must stand right before that colon; no other bracket or colon may occur. -/
def SplitHostPort (hostport : Bytes) : Except Error (Bytes × Bytes) :=
  match lastIndexByte hostport 58 with
  | none => .error (.new "missing port in address")
  | some i =>
    let hostPart : Except Error (Bytes × Nat × Nat) :=
      if hostport.headD 0 = 91 then
        match indexByte hostport 93 with
        | none => .error (.new "missing ']' in address")
        | some close =>
          if close + 1 = hostport.length then .error (.new "missing port in address")
          else if close + 1 = i then .ok ((hostport.take close).drop 1, 1, close + 1)
          else if hostport.getD (close + 1) 0 = 58 then
            .error (.new "too many colons in address")
          else .error (.new "missing port in address")
      else
        if (indexByte (hostport.take i) 58).isSome then
          .error (.new "too many colons in address")
        else .ok (hostport.take i, 0, 0)
    match hostPart with
    | .error e => .error e
    | .ok (host, j, k) =>
      if (indexByte (hostport.drop j) 91).isSome then
        .error (.new "unexpected '[' in address")
      else if (indexByte (hostport.drop k) 93).isSome then
        .error (.new "unexpected ']' in address")
      else .ok (host, hostport.drop (i + 1))

/-- The digit loop of `strconv.ParseUint` for base 10 (`strconv/atoi.go`): the
value read so far is `n`; a byte that is no decimal digit is a syntax error; a
value above `maxVal` is a range error, returned with `maxVal`. -/
def parseUintLoop (maxVal : Nat) : Bytes → Nat → Nat × Option Error
  | [], n => (n, none)
  | c :: cs, n =>
    if 48 ≤ c ∧ c ≤ 57 then
      if n ≥ (2 ^ 64 - 1) / 10 + 1 then (maxVal, some .ErrRange)
      else if n * 10 + (c - 48) > maxVal then (maxVal, some .ErrRange)
      else parseUintLoop maxVal cs (n * 10 + (c - 48))
    else (0, some .ErrSyntax)

/-- `strconv.ParseUint(s, 10, bitSize)`. -/
def ParseUint10 (s : Bytes) (bitSize : Nat) : Nat × Option Error :=
  if s = [] then (0, some .ErrSyntax) else parseUintLoop (2 ^ bitSize - 1) s 0

/-- `strconv.ParseInt(s, 10, bitSize)` for a bit size from 1 to 64: a leading
sign is taken off, the rest is read by `ParseUint`, and the value must fit the
signed type of `bitSize` bits. -/
def ParseInt10 (s : Bytes) (bitSize : Nat) : Except Error Int :=
  if s = [] then .error .ErrSyntax
  else
    let neg : Bool := s.headD 0 = 45
    let digits : Bytes := if s.headD 0 = 43 ∨ s.headD 0 = 45 then s.drop 1 else s
    match ParseUint10 digits bitSize with
    | (_, some .ErrSyntax) => .error .ErrSyntax
    | (un, _) =>
      let cutoff : Nat := 2 ^ (bitSize - 1)
      if !neg ∧ un ≥ cutoff then .error .ErrRange
      else if neg ∧ un > cutoff then .error .ErrRange
      else .ok (if neg then -(un : Int) else (un : Int))

/-- `NewAddressFromHostPort` (lines 174-197). -/
def NewAddressFromHostPort (parseIP : Bytes → NetIP) (network host : Bytes) (port : Int) :
    Address :=
  if parseIP host ≠ [] then
    if NetIP.To4 (parseIP host) ≠ [] then
      { IP := parseIP host, Port := port, AddressType := AddressType.IPv4,
        NetworkType := network, DomainName := [] }
    else
      { IP := parseIP host, Port := port, AddressType := AddressType.IPv6,
        NetworkType := network, DomainName := [] }
  else
    { DomainName := host, Port := port, AddressType := AddressType.DomainName,
      NetworkType := network, IP := [] }

/-- `NewAddressFromAddr` (lines 162-172). -/
def NewAddressFromAddr (parseIP : Bytes → NetIP) (network addr : Bytes) :
    Except Error Address :=
  match SplitHostPort addr with
  | .error e => .error e
  | .ok (host, portStr) =>
    match ParseInt10 portStr 16 with
    | .error e => .error e
    | .ok port => .ok (NewAddressFromHostPort parseIP network host port)

/-! # Theorems -/

/-! ## Lemmas on streams -/

theorem readFull_append (xs ys o : Bytes) (w : List (Option Nat)) (n : Nat)
    (h : n = xs.length) :
    readFull ⟨xs ++ ys, o, w⟩ n = (.ok xs, ⟨ys, o, w⟩) := by
  subst h
  simp [readFull]

theorem copyNDiscard_append (xs ys o : Bytes) (w : List (Option Nat)) (n : Nat)
    (h : n = xs.length) :
    copyNDiscard ⟨xs ++ ys, o, w⟩ n = (none, ⟨ys, o, w⟩) := by
  subst h
  simp [copyNDiscard]

theorem readFull_cons (x : Nat) (ys o : Bytes) (w : List (Option Nat)) :
    readFull ⟨x :: ys, o, w⟩ 1 = (.ok [x], ⟨ys, o, w⟩) :=
  readFull_append [x] ys o w 1 rfl

theorem write_noplan (i o buf : Bytes) :
    Stream.write ⟨i, o, []⟩ buf = (none, ⟨i, o ++ buf, []⟩) := rfl

theorem To4_length (ip : NetIP) (h : NetIP.To4 ip ≠ []) : (NetIP.To4 ip).length = 4 := by
  unfold NetIP.To4 at h ⊢
  split_ifs at h ⊢ with h1 h2
  · exact h1
  · simp [h2.1]
  · exact absurd rfl h

theorem To4_Equal (ip : NetIP) (h : NetIP.To4 ip ≠ []) : NetIP.Equal (NetIP.To4 ip) ip = true := by
  unfold NetIP.To4 at h ⊢
  split_ifs at h ⊢ with h1 h2
  · simp [NetIP.Equal]
  · have hl : (List.drop 12 ip).length = 4 := by simp [h2.1]
    simp [NetIP.Equal, hl, h2.1, h2.2]
  · exact absurd rfl h

theorem putUint16BE_uint16BE (p : Int) (h0 : 0 ≤ p) (h1 : p ≤ 65535) :
    uint16BE ((p % 65536).toNat / 256) ((p % 65536).toNat % 256) = p := by
  unfold uint16BE
  have : p % 65536 = p := Int.emod_eq_of_lt h0 (by omega)
  rw [this]
  have h2 : (p.toNat / 256 * 256 + p.toNat % 256) = p.toNat := Nat.div_add_mod' _ _
  rw [h2]
  exact Int.toNat_of_nonneg h0


/-! ## The address codec -/

theorem encode_IPv4 (a : Address) (h : a.AddressType = AddressType.IPv4) :
    a.encode = 1 :: (NetIP.To4 a.IP ++ putUint16BE a.Port) := by
  simp [Address.encode, Address.To, Stream.ofInput, Stream.write, h, AddressType.IPv4,
    AddressType.DomainName]

theorem encode_IPv6 (a : Address) (h : a.AddressType = AddressType.IPv6) :
    a.encode = 4 :: (NetIP.To16 a.IP ++ putUint16BE a.Port) := by
  simp [Address.encode, Address.To, Stream.ofInput, Stream.write, h, AddressType.IPv4,
    AddressType.IPv6, AddressType.DomainName]

theorem encode_DomainName (a : Address) (h : a.AddressType = AddressType.DomainName) :
    a.encode = 3 :: (a.DomainName.length % 256) :: (a.DomainName ++ putUint16BE a.Port) := by
  simp [Address.encode, Address.To, Stream.ofInput, Stream.write, h, AddressType.DomainName]

/-- Decoding a domain-name field whose length byte is at most 253. -/
theorem From_DomainName (parseIP : Bytes → NetIP) (a : Address) (d rest o : Bytes)
    (w : List (Option Nat)) (hi lo : Nat) (hlen : d.length ≤ 253) :
    Address.From parseIP a ⟨3 :: d.length :: (d ++ hi :: lo :: rest), o, w⟩ =
      (.ok,
        { (if parseIP d ≠ [] then
            (if NetIP.To4 (parseIP d) ≠ [] then
              { a with AddressType := AddressType.IPv4, IP := parseIP d }
            else { a with AddressType := AddressType.IPv6, IP := parseIP d })
          else { a with AddressType := AddressType.DomainName, DomainName := d })
          with Port := uint16BE hi lo },
        ⟨rest, o, w⟩) := by
  have hn : (d.length + 2) % 256 = d.length + 2 := Nat.mod_eq_of_lt (by omega)
  have hr : readFull ⟨d ++ hi :: lo :: rest, o, w⟩ (d.length + 2) =
      (.ok (d ++ [hi, lo]), ⟨rest, o, w⟩) := by
    have := readFull_append (d ++ [hi, lo]) rest o w (d.length + 2) (by simp)
    simpa using this
  unfold Address.From
  rw [readFull_cons]
  simp only [List.headD_cons, AddressType.IPv4, AddressType.IPv6, AddressType.DomainName]
  simp only [show (3 : Nat) ≠ 1 by decide, show (3 : Nat) ≠ 4 by decide, if_false, if_true]
  rw [readFull_cons]
  simp only [List.headD_cons, hn, hr]
  have h1 : ¬ (d.length + 2 < d.length) := by omega
  simp only [h1, if_false]
  have ht : List.take d.length (d ++ [hi, lo]) = d := by simp
  have g0 : (d ++ [hi, lo]).getD d.length 0 = hi := by
    rw [List.getD_eq_getElem?_getD, List.getElem?_append_right (le_refl _)]
    simp
  have g1 : (d ++ [hi, lo]).getD (d.length + 1) 0 = lo := by
    rw [List.getD_eq_getElem?_getD, List.getElem?_append_right (Nat.le_succ _)]
    simp
  rw [ht, g0, g1]

/-- Decoding an IPv4 field. -/
theorem From_IPv4 (parseIP : Bytes → NetIP) (a : Address) (ip rest o : Bytes)
    (w : List (Option Nat)) (hi lo : Nat) (hlen : ip.length = 4) :
    Address.From parseIP a ⟨1 :: (ip ++ hi :: lo :: rest), o, w⟩ =
      (.ok, { a with AddressType := AddressType.IPv4, IP := ip, Port := uint16BE hi lo },
        ⟨rest, o, w⟩) := by
  match ip, hlen with
  | [b0, b1, b2, b3], _ =>
    simp [Address.From, readFull, AddressType.IPv4, List.getD_eq_getElem?_getD]

/-- Decoding an IPv6 field. -/
theorem From_IPv6 (parseIP : Bytes → NetIP) (a : Address) (ip rest o : Bytes)
    (w : List (Option Nat)) (hi lo : Nat) (hlen : ip.length = 16) :
    Address.From parseIP a ⟨4 :: (ip ++ hi :: lo :: rest), o, w⟩ =
      (.ok, { a with AddressType := AddressType.IPv6, IP := ip, Port := uint16BE hi lo },
        ⟨rest, o, w⟩) := by
  match ip, hlen with
  | [b0, b1, b2, b3, b4, b5, b6, b7, b8, b9, b10, b11, b12, b13, b14, b15], _ =>
    simp [Address.From, readFull, AddressType.IPv4, AddressType.IPv6,
      List.getD_eq_getElem?_getD]

/-- The round trip of the codec for every valid address whose domain name has at
most 253 bytes: `From` succeeds on what `To` wrote, consumes all of it, and
gives back the address type, the IP value, the domain name and the port. -/
theorem From_To_roundtrip (parseIP : Bytes → NetIP) (a : Address)
    (hv : Address.Valid parseIP 253 a) :
    ∃ b : Address,
      Address.From parseIP Address.zero (Stream.ofInput a.encode) = (.ok, b, Stream.ofInput []) ∧
      b.AddressType = a.AddressType ∧ NetIP.Equal b.IP a.IP = true ∧
      b.DomainName = a.DomainName ∧ b.Port = a.Port := by
  obtain ⟨hp0, hp1, hcase⟩ := hv
  have hport := putUint16BE_uint16BE a.Port hp0 hp1
  rcases hcase with ⟨ht, h4, hd⟩ | ⟨ht, h16, hd⟩ | ⟨ht, hlen, hnip, hip⟩
  · rw [encode_IPv4 a ht]
    exact ⟨_, From_IPv4 parseIP Address.zero (NetIP.To4 a.IP) [] [] [] _ _ (To4_length _ h4),
      by simp [Address.zero, ht, hd, hport, To4_Equal _ h4]⟩
  · rw [encode_IPv6 a ht, show NetIP.To16 a.IP = a.IP by simp [NetIP.To16, h16]]
    exact ⟨_, From_IPv6 parseIP Address.zero a.IP [] [] [] _ _ h16,
      by simp [Address.zero, ht, hd, hport, NetIP.Equal]⟩
  · rw [encode_DomainName a ht, Nat.mod_eq_of_lt (by omega : a.DomainName.length < 256)]
    exact ⟨_, From_DomainName parseIP Address.zero a.DomainName [] [] [] _ _ hlen,
      by simp [Address.zero, ht, hnip, hip, hport, NetIP.Equal]⟩

theorem From_To_roundtrip_witness :
    ∃ b : Address,
      Address.From (fun _ => []) Address.zero
          (Stream.ofInput (Address.encode ⟨[], ascii "example.com", [], 443, 3⟩)) =
        (.ok, b, Stream.ofInput []) ∧
      b.AddressType = 3 ∧ NetIP.Equal b.IP [] = true ∧
      b.DomainName = ascii "example.com" ∧ b.Port = 443 :=
  From_To_roundtrip (fun _ => []) ⟨[], ascii "example.com", [], 443, 3⟩
    ⟨by decide, by decide, Or.inr (Or.inr ⟨rfl, by decide, rfl, rfl⟩)⟩

/-- C1 (fails on the code): for a Domain address whose name has 254 or 255
bytes, and whatever `net.ParseIP` says of it, `Address.From` run on the bytes
that `Address.To` wrote does not return an address: `length+2` wraps around in
`byte` arithmetic, the buffer is too short, and the slice expression panics. -/
theorem From_To_long_domain_panics (parseIP : Bytes → NetIP) (a b : Address)
    (ht : a.AddressType = AddressType.DomainName)
    (hlen : a.DomainName.length = 254 ∨ a.DomainName.length = 255) :
    (Address.From parseIP b (Stream.ofInput a.encode)).1 = .panic "slice bounds out of range" := by
  rw [encode_DomainName a ht]
  unfold Address.From Stream.ofInput
  rw [readFull_cons]
  simp only [List.headD_cons, AddressType.IPv4, AddressType.IPv6, AddressType.DomainName]
  simp only [show (3 : Nat) ≠ 1 by decide, show (3 : Nat) ≠ 4 by decide, if_false, if_true]
  rw [readFull_cons]
  simp only [List.headD_cons]
  rcases hlen with h | h
  · simp [h, readFull, putUint16BE]
  · simp [h, readFull, putUint16BE]

theorem From_To_long_domain_panics_witness :
    (Address.From (fun _ => []) Address.zero (Stream.ofInput longDomain.encode)).1 =
      .panic "slice bounds out of range" :=
  From_To_long_domain_panics (fun _ => []) longDomain Address.zero rfl
    (Or.inl (List.length_replicate 254 97))

/-- C6: on a stream whose first byte is none of 1, 3, 4, `Address.From` fails
with `ERR_ADDRESS_TYPE` and has consumed that one tag byte only: the bytes after
it are all still unread, and nothing was written. -/
theorem From_unsupported_tag (parseIP : Bytes → NetIP) (a : Address) (t : Nat)
    (rest o : Bytes) (w : List (Option Nat))
    (h1 : t ≠ 1) (h3 : t ≠ 3) (h4 : t ≠ 4) :
    (Address.From parseIP a ⟨t :: rest, o, w⟩).1 = .err .ERR_ADDRESS_TYPE ∧
    (Address.From parseIP a ⟨t :: rest, o, w⟩).2.2 = ⟨rest, o, w⟩ := by
  unfold Address.From
  rw [readFull_cons]
  simp [AddressType.IPv4, AddressType.IPv6, AddressType.DomainName, h1, h3, h4]

theorem From_unsupported_tag_witness :
    (Address.From (fun _ => []) Address.zero ⟨[2, 9, 9], [], []⟩).1 = .err .ERR_ADDRESS_TYPE ∧
    (Address.From (fun _ => []) Address.zero ⟨[2, 9, 9], [], []⟩).2.2 = ⟨[9, 9], [], []⟩ :=
  From_unsupported_tag (fun _ => []) Address.zero 2 [9, 9] [] []
    (by decide) (by decide) (by decide)

/-! ## The SOCKS5 handshake -/

theorem readFull_two (x y : Nat) (ys o : Bytes) (w : List (Option Nat)) :
    readFull ⟨x :: y :: ys, o, w⟩ 2 = (.ok [x, y], ⟨ys, o, w⟩) :=
  readFull_append [x, y] ys o w 2 rfl

theorem readFull_three (x y z : Nat) (ys o : Bytes) (w : List (Option Nat)) :
    readFull ⟨x :: y :: z :: ys, o, w⟩ 3 = (.ok [x, y, z], ⟨ys, o, w⟩) :=
  readFull_append [x, y, z] ys o w 3 rfl

/-- The greeting: on an input that starts with version 5, a count `n` and `n`
method bytes, the call is the write of `(5, 0)` followed by the request phase on
the bytes after the methods. -/
theorem Socks5Connect_greeting (env : Env) (proxy : Proxy) (n : Nat) (ms rest o : Bytes)
    (w : List (Option Nat)) (hn : ms.length = n) :
    proxy.Socks5Connect env ⟨5 :: n :: (ms ++ rest), o, w⟩ =
      match Stream.write ⟨rest, o, w⟩ [5, 0] with
      | (some _, s) => Run.early s .ERR_AUTH_FAILED
      | (none, s) => proxy.socks5Request env s := by
  unfold Proxy.Socks5Connect
  rw [readFull_two]
  simp only [List.getD_cons_zero, List.getD_cons_succ, Socks5Version, MethodNoAuth,
    ne_eq, not_true_eq_false, if_false]
  rw [copyNDiscard_append ms rest o w n hn.symm]

theorem write_of_nextWriteOk (i o buf : Bytes) (w : List (Option Nat)) (h : nextWriteOk w) :
    Stream.write ⟨i, o, w⟩ buf = (none, ⟨i, o ++ buf, w.tail⟩) := by
  match w, h with
  | [], _ => rfl
  | none :: _, _ => rfl
  | some k :: _, h => exact absurd rfl (h k)

theorem nextWriteOk_of_all (w : List (Option Nat)) (h : allWritesOk w) : nextWriteOk w := by
  intro k hk
  match w, h, hk with
  | x :: _, h, hk =>
    have := h x (List.mem_cons_self _ _)
    simp at hk
    rw [this] at hk
    cases hk

theorem allWritesOk_tail (w : List (Option Nat)) (h : allWritesOk w) : allWritesOk w.tail :=
  fun x hx => h x (List.mem_of_mem_tail hx)

/-- A write appends to the output and leaves the input alone. -/
theorem write_output (s : Stream) (buf : Bytes) :
    ∃ t, (s.write buf).2.output = s.output ++ t ∧ (s.write buf).2.input = s.input := by
  unfold Stream.write
  split
  · exact ⟨buf, rfl, rfl⟩
  · exact ⟨buf, rfl, rfl⟩
  · exact ⟨_, rfl, rfl⟩

/-- With a plan in which no write fails, `To` succeeds unless the address type
is unknown, and in every case it has appended `encode` to the output. -/
theorem To_of_allWritesOk (a : Address) (i o : Bytes) (w : List (Option Nat))
    (h : allWritesOk w) :
    ∃ w2, allWritesOk w2 ∧ (a.To ⟨i, o, w⟩).2 = ⟨i, o ++ a.encode, w2⟩ := by
  have h1 := nextWriteOk_of_all w h
  have h2 := allWritesOk_tail w h
  have h3 := nextWriteOk_of_all _ h2
  have h4 := allWritesOk_tail _ h2
  have h5 := nextWriteOk_of_all _ h4
  have h6 := allWritesOk_tail _ h4
  have h7 := nextWriteOk_of_all _ h6
  have h8 := allWritesOk_tail _ h6
  have n1 : AddressType.IPv4 ≠ AddressType.DomainName := by decide
  have n2 : AddressType.IPv6 ≠ AddressType.DomainName := by decide
  have n3 : AddressType.IPv6 ≠ AddressType.IPv4 := by decide
  unfold Address.encode Address.To Stream.ofInput
  simp only [write_of_nextWriteOk _ _ _ _ h1, write_noplan]
  by_cases hd : a.AddressType = AddressType.DomainName
  · simp only [hd, if_true, write_of_nextWriteOk _ _ _ _ h3, write_of_nextWriteOk _ _ _ _ h5,
      write_of_nextWriteOk _ _ _ _ h7, write_noplan]
    exact ⟨_, h8, by simp⟩
  · by_cases h4' : a.AddressType = AddressType.IPv4
    · simp only [h4', n1, if_true, if_false, write_of_nextWriteOk _ _ _ _ h3,
        write_of_nextWriteOk _ _ _ _ h5, write_noplan]
      exact ⟨_, h6, by simp⟩
    · by_cases h6' : a.AddressType = AddressType.IPv6
      · simp only [h6', n2, n3, if_true, if_false, write_of_nextWriteOk _ _ _ _ h3,
          write_of_nextWriteOk _ _ _ _ h5, write_noplan]
        exact ⟨_, h6, by simp⟩
      · simp only [hd, h4', h6', if_false]
        exact ⟨_, h2, by simp⟩

/-- The request phase on an input that starts with a 3-byte header of
version 5. -/
theorem socks5Request_header (env : Env) (proxy : Proxy) (cmd rsv : Nat) (rest o : Bytes)
    (w : List (Option Nat)) :
    proxy.socks5Request env ⟨5 :: cmd :: rsv :: rest, o, w⟩ =
      match Address.From env.parseIP Address.zero ⟨rest, o, w⟩ with
      | (.err e, addr, s2) => ⟨s2, some e, addr, [], none, none, false⟩
      | (.panic _, addr, s2) => ⟨s2, none, addr, [], none, none, true⟩
      | (.ok, addr, s2) =>
        match proxy.connect env cmd addr with
        | (code, err, conn, dials) =>
          match s2.write [5, code, rsv] with
          | (some _, s3) => ⟨s3, err, addr, dials, some [5, code, rsv], none, false⟩
          | (none, s3) =>
            match addr.To s3 with
            | (some _, s4) => ⟨s4, err, addr, dials, some [5, code, rsv], none, false⟩
            | (none, s4) =>
              if code ≠ 0 then ⟨s4, err, addr, dials, some [5, code, rsv], none, false⟩
              else ⟨s4, err, addr, dials, some [5, code, rsv], conn, false⟩ := by
  unfold Proxy.socks5Request
  rw [readFull_three]
  simp only [List.getD_cons_zero, List.getD_cons_succ, Socks5Version, ne_eq,
    not_true_eq_false, if_false]

/-- Whenever the reply step is reached, the request phase started on a 3-byte
header of version 5. -/
theorem socks5Request_reply_inv (env : Env) (proxy : Proxy) (s : Stream) (rep : Bytes)
    (hr : (proxy.socks5Request env s).reply = some rep) :
    ∃ cmd rsv rest, s.input = 5 :: cmd :: rsv :: rest := by
  obtain ⟨i, o, w⟩ := s
  match i with
  | [] => simp [Proxy.socks5Request, readFull, Run.early] at hr
  | [_] => simp [Proxy.socks5Request, readFull, Run.early] at hr
  | [_, _] => simp [Proxy.socks5Request, readFull, Run.early] at hr
  | v :: cmd :: rsv :: rest =>
    by_cases hv : v = 5
    · exact ⟨cmd, rsv, rest, by rw [hv]⟩
    · unfold Proxy.socks5Request at hr
      rw [readFull_three] at hr
      simp [Socks5Version, hv, Run.early] at hr

/-- Whenever the reply step is reached, the client sent version 5, a method
count, that many methods, and a 3-byte header of version 5. -/
theorem Socks5Connect_reply_inv (env : Env) (proxy : Proxy) (s : Stream) (rep : Bytes)
    (hr : (proxy.Socks5Connect env s).reply = some rep) :
    ∃ n ms cmd rsv rest,
      s.input = 5 :: n :: (ms ++ 5 :: cmd :: rsv :: rest) ∧ ms.length = n := by
  obtain ⟨i, o, w⟩ := s
  match i with
  | [] => simp [Proxy.Socks5Connect, readFull, Run.early] at hr
  | [_] => simp [Proxy.Socks5Connect, readFull, Run.early] at hr
  | v :: n :: tl =>
    by_cases hv : v = 5
    · by_cases hle : n ≤ tl.length
      · have htl : tl = tl.take n ++ tl.drop n := (List.take_append_drop n tl).symm
        have hlen : (tl.take n).length = n := by simp [hle]
        rw [hv, htl, Socks5Connect_greeting env proxy n _ _ o w hlen] at hr
        cases hw : Stream.write ⟨tl.drop n, o, w⟩ [5, 0] with
        | mk e s3 =>
          rw [hw] at hr
          cases e with
          | some e => simp [Run.early] at hr
          | none =>
            obtain ⟨cmd, rsv, rest, h3⟩ := socks5Request_reply_inv env proxy s3 rep hr
            have hin := (write_output ⟨tl.drop n, o, w⟩ [5, 0]).choose_spec.2
            rw [hw] at hin
            simp only at hin
            refine ⟨n, tl.take n, cmd, rsv, rest, ?_, hlen⟩
            rw [hv, ← h3, hin, List.take_append_drop]
      · unfold Proxy.Socks5Connect at hr
        rw [readFull_two] at hr
        simp [Socks5Version, hv, copyNDiscard, hle, Run.early] at hr
    · unfold Proxy.Socks5Connect at hr
      rw [readFull_two] at hr
      simp [Socks5Version, hv, Run.early] at hr

theorem readFull_frame (i o : Bytes) (w : List (Option Nat)) (n : Nat) :
    readFull ⟨i, o, w⟩ n =
      ((readFull (Stream.ofInput i) n).1, ⟨(readFull (Stream.ofInput i) n).2.input, o, w⟩) := by
  unfold readFull Stream.ofInput
  split_ifs <;> simp_all

/-- `Address.From` only reads: its result and the address it leaves are those of
the same call on a bare reader over the same bytes, and the output and the write
plan of the stream are untouched. -/
theorem From_frame (parseIP : Bytes → NetIP) (a : Address) (i o : Bytes)
    (w : List (Option Nat)) :
    Address.From parseIP a ⟨i, o, w⟩ =
      ((Address.From parseIP a (Stream.ofInput i)).1,
       (Address.From parseIP a (Stream.ofInput i)).2.1,
       ⟨(Address.From parseIP a (Stream.ofInput i)).2.2.input, o, w⟩) := by
  unfold Address.From
  rw [readFull_frame i o w 1]
  cases h1 : readFull (Stream.ofInput i) 1 with
  | mk e1 r1 =>
    obtain ⟨i1, o1, w1⟩ := r1
    cases e1 with
    | error e => rfl
    | ok tag =>
      simp only
      split_ifs
      · rw [readFull_frame i1 o w 6, readFull_frame i1 o1 w1 6]
        cases h2 : readFull (Stream.ofInput i1) 6 with
        | mk e2 r2 => cases e2 <;> rfl
      · rw [readFull_frame i1 o w 18, readFull_frame i1 o1 w1 18]
        cases h2 : readFull (Stream.ofInput i1) 18 with
        | mk e2 r2 => cases e2 <;> rfl
      · rw [readFull_frame i1 o w 1, readFull_frame i1 o1 w1 1]
        cases h2 : readFull (Stream.ofInput i1) 1 with
        | mk e2 r2 =>
          obtain ⟨i2, o2, w2⟩ := r2
          cases e2 with
          | error e => rfl
          | ok lbuf =>
            simp only
            rw [readFull_frame i2 o w, readFull_frame i2 o1 w1]
            cases h3 : readFull (Stream.ofInput i2) ((lbuf.headD 0 + 2) % 256) with
            | mk e3 r3 =>
              cases e3 with
              | error e => rfl
              | ok buf =>
                simp only
                split_ifs <;> rfl
      · rfl

/-- The request phase, when it reaches the reply step: the address is the one
decoded from the bytes after the header, the reply is version 5, the code chosen
by lines 73-82, and the reserved byte of the header; the dial calls are those
of lines 73-82; and when no write fails the output has grown by the reply and
the encoding of that address. -/
theorem socks5Request_reply (env : Env) (proxy : Proxy) (cmd rsv : Nat) (rest o : Bytes)
    (w : List (Option Nat)) (rep : Bytes)
    (hr : (proxy.socks5Request env ⟨5 :: cmd :: rsv :: rest, o, w⟩).reply = some rep) :
    (proxy.socks5Request env ⟨5 :: cmd :: rsv :: rest, o, w⟩).addr = decodeAddress env rest ∧
    rep = [5, (proxy.connect env cmd (decodeAddress env rest)).1, rsv] ∧
    (proxy.socks5Request env ⟨5 :: cmd :: rsv :: rest, o, w⟩).dials =
      (proxy.connect env cmd (decodeAddress env rest)).2.2.2 ∧
    (allWritesOk w →
      (proxy.socks5Request env ⟨5 :: cmd :: rsv :: rest, o, w⟩).socket.output =
        o ++ rep ++ (decodeAddress env rest).encode) := by
  rw [socks5Request_header, From_frame] at hr ⊢
  unfold decodeAddress
  cases hF : Address.From env.parseIP Address.zero (Stream.ofInput rest) with
  | mk ret p =>
    obtain ⟨addr, sF⟩ := p
    rw [hF] at hr
    simp only at hr ⊢
    cases ret with
    | err e => simp at hr
    | panic m => simp at hr
    | ok =>
      simp only at hr ⊢
      cases hC : proxy.connect env cmd addr with
      | mk code p2 =>
        obtain ⟨err, conn, dials⟩ := p2
        rw [hC] at hr
        simp only at hr ⊢
        cases hW : Stream.write ⟨sF.input, o, w⟩ [5, code, rsv] with
        | mk e s3 =>
          rw [hW] at hr
          cases e with
          | some e =>
            simp only [Option.some.injEq] at hr
            refine ⟨rfl, hr.symm, rfl, ?_⟩
            intro hall
            rw [write_of_nextWriteOk _ _ _ _ (nextWriteOk_of_all w hall)] at hW
            simp at hW
          | none =>
            simp only at hr ⊢
            have hreply : rep = [5, code, rsv] := by
              cases hT : addr.To s3 with
              | mk e4 s4 =>
                rw [hT] at hr
                cases e4 with
                | some e => simpa using hr.symm
                | none =>
                  simp only at hr
                  split_ifs at hr <;> simpa using hr.symm
            have haddr : ∀ (r : Run), r = (match addr.To s3 with
                | (some _, s4) => (⟨s4, err, addr, dials, some [5, code, rsv], none, false⟩ : Run)
                | (none, s4) =>
                  if code ≠ 0 then ⟨s4, err, addr, dials, some [5, code, rsv], none, false⟩
                  else ⟨s4, err, addr, dials, some [5, code, rsv], conn, false⟩) →
                r.addr = addr ∧ r.dials = dials ∧ r.socket = (addr.To s3).2 := by
              intro r hrun
              cases hT : addr.To s3 with
              | mk e4 s4 =>
                rw [hT] at hrun
                cases e4 with
                | some e => subst hrun; exact ⟨rfl, rfl, rfl⟩
                | none =>
                  simp only at hrun
                  split_ifs at hrun <;> (subst hrun; exact ⟨rfl, rfl, rfl⟩)
            obtain ⟨h1, h2, h3⟩ := haddr _ rfl
            refine ⟨h1, hreply, h2, ?_⟩
            intro hall
            rw [h3]
            rw [write_of_nextWriteOk _ _ _ _ (nextWriteOk_of_all w hall)] at hW
            have hs3 : s3 = ⟨sF.input, o ++ [5, code, rsv], w.tail⟩ := by
              simpa using (congrArg Prod.snd hW).symm
            obtain ⟨w2, _, hT⟩ := To_of_allWritesOk addr sF.input (o ++ [5, code, rsv]) w.tail
              (allWritesOk_tail w hall)
            rw [hs3, hT, hreply]

theorem connect_not_CONNECT (env : Env) (proxy : Proxy) (cmd : Nat) (addr : Address)
    (h : cmd ≠ 1) : proxy.connect env cmd addr = (7, some .ERR_CMD, none, []) := by
  simp [Proxy.connect, CmdConnect, h]

theorem connect_dial_error (env : Env) (proxy : Proxy) (addr : Address) (e : Error)
    (h : proxy.dialFunc env (ascii "tcp") (addr.String env.ipString) = .error e) :
    proxy.connect env 1 addr =
      (3, some e, none, [(ascii "tcp", addr.String env.ipString)]) := by
  simp [Proxy.connect, CmdConnect, h]

theorem connect_dial_ok (env : Env) (proxy : Proxy) (addr : Address) (c : Nat)
    (h : proxy.dialFunc env (ascii "tcp") (addr.String env.ipString) = .ok c) :
    proxy.connect env 1 addr =
      (0, none, some c, [(ascii "tcp", addr.String env.ipString)]) := by
  simp [Proxy.connect, CmdConnect, h]

theorem write_extends (s : Stream) (buf : Bytes) : s.output <+: (s.write buf).2.output := by
  obtain ⟨t, h, _⟩ := write_output s buf
  exact ⟨t, h.symm⟩

theorem To_extends (a : Address) (s : Stream) : s.output <+: (a.To s).2.output := by
  unfold Address.To
  have h1 := write_extends s [a.AddressType]
  cases hw : s.write [a.AddressType] with
  | mk e w1 =>
    rw [hw] at h1
    cases e with
    | some e => exact h1
    | none =>
      simp only at h1 ⊢
      have h2 : w1.output <+:
          (if a.AddressType = AddressType.DomainName then
            (w1.write [a.DomainName.length % 256]).2.write a.DomainName
          else if a.AddressType = AddressType.IPv4 then w1.write (NetIP.To4 a.IP)
          else if a.AddressType = AddressType.IPv6 then w1.write (NetIP.To16 a.IP)
          else (some Error.ERR_ADDRESS_TYPE, w1)).2.output := by
        split_ifs
        · exact (write_extends _ _).trans (write_extends _ _)
        · exact write_extends _ _
        · exact write_extends _ _
        · exact List.prefix_refl _
      revert h2
      generalize (if a.AddressType = AddressType.DomainName then
            (w1.write [a.DomainName.length % 256]).2.write a.DomainName
          else if a.AddressType = AddressType.IPv4 then w1.write (NetIP.To4 a.IP)
          else if a.AddressType = AddressType.IPv6 then w1.write (NetIP.To16 a.IP)
          else (some Error.ERR_ADDRESS_TYPE, w1)) = step
      intro h2
      obtain ⟨e2, w2⟩ := step
      cases e2 with
      | some e => exact h1.trans h2
      | none => exact (h1.trans h2).trans (write_extends _ _)

/-- The request phase never takes back what was written: the output at its
start is a prefix of the output at its end. -/
theorem socks5Request_extends (env : Env) (proxy : Proxy) (s : Stream) :
    s.output <+: (proxy.socks5Request env s).socket.output := by
  obtain ⟨i, o, w⟩ := s
  unfold Proxy.socks5Request
  rw [readFull_frame]
  cases hR : readFull (Stream.ofInput i) 3 with
  | mk e r1 =>
    cases e with
    | error e => exact List.prefix_refl _
    | ok buf =>
      simp only
      split_ifs
      · exact List.prefix_refl _
      · rw [From_frame]
        cases hF : Address.From env.parseIP Address.zero (Stream.ofInput r1.input) with
        | mk ret p =>
          obtain ⟨addr, sF⟩ := p
          cases ret with
          | err e => exact List.prefix_refl _
          | panic m => exact List.prefix_refl _
          | ok =>
            simp only
            cases hC : proxy.connect env (buf.getD 1 0) addr with
            | mk code p2 =>
              obtain ⟨err, conn, dials⟩ := p2
              simp only
              have h1 := write_extends ⟨sF.input, o, w⟩ [buf.getD 0 0, code, buf.getD 2 0]
              cases hW : Stream.write ⟨sF.input, o, w⟩ [buf.getD 0 0, code, buf.getD 2 0] with
              | mk e s3 =>
                rw [hW] at h1
                cases e with
                | some e => exact h1
                | none =>
                  simp only at h1 ⊢
                  have h2 := To_extends addr s3
                  cases hT : addr.To s3 with
                  | mk e4 s4 =>
                    rw [hT] at h2
                    cases e4 with
                    | some e => exact h1.trans h2
                    | none =>
                      simp only
                      split_ifs <;> exact h1.trans h2

/-- The run of `Socks5Connect` on a well-formed greeting whose answer is written
without error is the request phase on the rest of the input. -/
theorem Socks5Connect_reply_greeting (env : Env) (proxy : Proxy) (n : Nat) (ms tl o : Bytes)
    (w : List (Option Nat)) (rep : Bytes) (hn : ms.length = n)
    (hr : (proxy.Socks5Connect env ⟨5 :: n :: (ms ++ tl), o, w⟩).reply = some rep) :
    ∃ o2 w2, (allWritesOk w → o2 = o ++ [5, 0] ∧ allWritesOk w2) ∧
      proxy.Socks5Connect env ⟨5 :: n :: (ms ++ tl), o, w⟩ =
        proxy.socks5Request env ⟨tl, o2, w2⟩ := by
  rw [Socks5Connect_greeting env proxy n ms tl o w hn] at hr ⊢
  cases hw : Stream.write ⟨tl, o, w⟩ [5, 0] with
  | mk e s3 =>
    rw [hw] at hr
    cases e with
    | some e => simp [Run.early] at hr
    | none =>
      obtain ⟨i3, o3, w3⟩ := s3
      have hin := (write_output ⟨tl, o, w⟩ [5, 0]).choose_spec.2
      rw [hw] at hin
      simp only at hin
      subst hin
      refine ⟨o3, w3, ?_, rfl⟩
      intro hall
      rw [write_of_nextWriteOk _ _ _ _ (nextWriteOk_of_all w hall)] at hw
      simp only [Prod.mk.injEq, Stream.mk.injEq, true_and] at hw
      exact ⟨hw.1.symm, hw.2 ▸ allWritesOk_tail w hall⟩


/-- An address that `Address.From` decoded without error is of one of the three
known types. -/
theorem From_ok_type (parseIP : Bytes → NetIP) (a : Address) (r : Stream)
    (h : (Address.From parseIP a r).1 = .ok) :
    (Address.From parseIP a r).2.1.AddressType = 1 ∨
    (Address.From parseIP a r).2.1.AddressType = 3 ∨
    (Address.From parseIP a r).2.1.AddressType = 4 := by
  unfold Address.From at h ⊢
  cases h1 : readFull r 1 with
  | mk e1 r1 =>
    simp only [h1] at h ⊢
    cases e1 with
    | error e => simp at h
    | ok tag =>
      simp only at h ⊢
      split_ifs at h ⊢ with c1 c2 c3
      · cases h2 : readFull r1 6 with
        | mk e2 r2 =>
          simp only [h2] at h ⊢
          cases e2 with
          | error e => simp at h
          | ok buf => exact Or.inl c1
      · cases h2 : readFull r1 18 with
        | mk e2 r2 =>
          simp only [h2] at h ⊢
          cases e2 with
          | error e => simp at h
          | ok buf => exact Or.inr (Or.inr c2)
      · cases h2 : readFull r1 1 with
        | mk e2 r2 =>
          simp only [h2] at h ⊢
          cases e2 with
          | error e => simp at h
          | ok lbuf =>
            simp only at h ⊢
            cases h3 : readFull r2 ((lbuf.headD 0 + 2) % 256) with
            | mk e3 r3 =>
              simp only [h3] at h ⊢
              cases e3 with
              | error e => simp at h
              | ok buf =>
                simp only at h ⊢
                split_ifs at h ⊢
                all_goals first
                  | exact Or.inl rfl
                  | exact Or.inr (Or.inr rfl)
                  | exact Or.inr (Or.inl c3)

/-- When the bytes after a version-5 header decode to an address, the request
phase reaches the reply step, with the code that lines 73-82 choose. -/
theorem socks5Request_reaches (env : Env) (proxy : Proxy) (cmd rsv : Nat) (rest o : Bytes)
    (w : List (Option Nat))
    (hok : (Address.From env.parseIP Address.zero (Stream.ofInput rest)).1 = .ok) :
    (proxy.socks5Request env ⟨5 :: cmd :: rsv :: rest, o, w⟩).reply =
      some [5, (proxy.connect env cmd (decodeAddress env rest)).1, rsv] := by
  rw [socks5Request_header, From_frame]
  unfold decodeAddress
  cases hF : Address.From env.parseIP Address.zero (Stream.ofInput rest) with
  | mk ret p =>
    obtain ⟨addr, sF⟩ := p
    rw [hF] at hok
    simp only at hok
    subst hok
    simp only
    cases hC : proxy.connect env cmd addr with
    | mk code p2 =>
      obtain ⟨err, conn, dials⟩ := p2
      simp only
      cases hW : Stream.write ⟨sF.input, o, w⟩ [5, code, rsv] with
      | mk e s3 =>
        cases e with
        | some e => rfl
        | none =>
          simp only
          cases hT : addr.To s3 with
          | mk e4 s4 =>
            cases e4 with
            | some e => rfl
            | none =>
              simp only
              split_ifs <;> rfl

/-- When the bytes after a version-5 header do not decode, the request phase
returns with the error of `Address.From`, before any dial and any reply. -/
theorem socks5Request_bad_address (env : Env) (proxy : Proxy) (cmd rsv : Nat)
    (rest o : Bytes) (w : List (Option Nat)) (e : Error)
    (herr : (Address.From env.parseIP Address.zero (Stream.ofInput rest)).1 = .err e) :
    (proxy.socks5Request env ⟨5 :: cmd :: rsv :: rest, o, w⟩).err = some e ∧
    (proxy.socks5Request env ⟨5 :: cmd :: rsv :: rest, o, w⟩).reply = none ∧
    (proxy.socks5Request env ⟨5 :: cmd :: rsv :: rest, o, w⟩).dials = [] ∧
    (proxy.socks5Request env ⟨5 :: cmd :: rsv :: rest, o, w⟩).socket.output = o := by
  rw [socks5Request_header, From_frame]
  cases hF : Address.From env.parseIP Address.zero (Stream.ofInput rest) with
  | mk ret p =>
    obtain ⟨addr, sF⟩ := p
    rw [hF] at herr
    simp only at herr
    subst herr
    exact ⟨rfl, rfl, rfl, rfl⟩

/-- The bytes `Address.To` writes for an address of a known type, spelled out:
the type, then the length byte and the name, or the 4-byte or 16-byte IP, then
the port, high byte first. -/
theorem encode_known (a : Address)
    (h : a.AddressType = 1 ∨ a.AddressType = 3 ∨ a.AddressType = 4) :
    a.encode =
      a.AddressType ::
        ((if a.AddressType = 3 then (a.DomainName.length % 256) :: a.DomainName
          else if a.AddressType = 1 then NetIP.To4 a.IP
          else NetIP.To16 a.IP) ++
         [(a.Port % 65536).toNat / 256, (a.Port % 65536).toNat % 256]) := by
  rcases h with h | h | h
  · rw [encode_IPv4 a h, h]; simp [putUint16BE]
  · rw [encode_DomainName a h, h]; simp [putUint16BE]
  · rw [encode_IPv6 a h, h]; simp [putUint16BE]

/-- The reply step is reached only when the bytes after the header decode. -/
theorem socks5Request_reply_ok (env : Env) (proxy : Proxy) (cmd rsv : Nat) (rest o : Bytes)
    (w : List (Option Nat)) (rep : Bytes)
    (hr : (proxy.socks5Request env ⟨5 :: cmd :: rsv :: rest, o, w⟩).reply = some rep) :
    (Address.From env.parseIP Address.zero (Stream.ofInput rest)).1 = .ok := by
  rw [socks5Request_header, From_frame] at hr
  cases hF : Address.From env.parseIP Address.zero (Stream.ofInput rest) with
  | mk ret p =>
    obtain ⟨addr, sF⟩ := p
    rw [hF] at hr
    cases ret with
    | err e => simp at hr
    | panic m => simp at hr
    | ok => rfl

/-- The text `Address.String` gives for an address of a known type, spelled
out: the IP, in brackets for IPv6, or the domain name, then a colon and the port
in decimal. -/
theorem String_known (ipString : NetIP → Bytes) (a : Address)
    (h : a.AddressType = 1 ∨ a.AddressType = 3 ∨ a.AddressType = 4) :
    a.String ipString =
      (if a.AddressType = 1 then ipString a.IP ++ [58] ++ ascii (toString a.Port)
       else if a.AddressType = 4 then
         [91] ++ ipString a.IP ++ [93, 58] ++ ascii (toString a.Port)
       else a.DomainName ++ [58] ++ ascii (toString a.Port)) := by
  have c1 : ascii ":" = [58] := by decide
  have c2 : ascii "[" = [91] := by decide
  have c3 : ascii "]:" = [93, 58] := by decide
  unfold Address.String itoa
  rw [c1, c2, c3]
  rcases h with h | h | h <;>
    simp [h, AddressType.IPv4, AddressType.IPv6, AddressType.DomainName]

/-- C2: in every run of `Socks5Connect` that reaches the reply step, the client
sent a greeting and a request header with some command byte `cmd` and reserved
byte `rsv`, and the bytes after the header decode to an address `addr` of type
1, 3 or 4. When `cmd` is not 1 the reply is `5, 7, rsv` and the dial function
was not called. When `cmd` is 1 the dial function was called exactly once, for
the network `tcp` and the text `target` of `addr` (the IP, in brackets for IPv6,
or the domain name, then a colon and the decimal port); the function called is
`proxy.Dial` when it is set and the default dialer otherwise; and the reply is
`5, 3, rsv` when that call returns an error and `5, 0, rsv` when it returns a
connection. -/
theorem Socks5Connect_reply_code (env : Env) (proxy : Proxy) (s : Stream) (rep : Bytes)
    (hr : (proxy.Socks5Connect env s).reply = some rep) :
    ∃ n ms cmd rsv rest addr target,
      s.input = 5 :: n :: (ms ++ 5 :: cmd :: rsv :: rest) ∧ ms.length = n ∧
      (Address.From env.parseIP Address.zero (Stream.ofInput rest)).1 = .ok ∧
      (Address.From env.parseIP Address.zero (Stream.ofInput rest)).2.1 = addr ∧
      (addr.AddressType = 1 ∨ addr.AddressType = 3 ∨ addr.AddressType = 4) ∧
      (proxy.Socks5Connect env s).addr = addr ∧
      target =
        (if addr.AddressType = 1 then env.ipString addr.IP ++ [58] ++ ascii (toString addr.Port)
         else if addr.AddressType = 4 then
           [91] ++ env.ipString addr.IP ++ [93, 58] ++ ascii (toString addr.Port)
         else addr.DomainName ++ [58] ++ ascii (toString addr.Port)) ∧
      addr.String env.ipString = target ∧
      (cmd ≠ 1 → rep = [5, 7, rsv] ∧ (proxy.Socks5Connect env s).dials = []) ∧
      (cmd = 1 →
        (proxy.Socks5Connect env s).dials = [([116, 99, 112], target)] ∧
        (∀ d, proxy.Dial = some d →
          (∀ e, d [116, 99, 112] target = .error e → rep = [5, 3, rsv]) ∧
          (∀ c, d [116, 99, 112] target = .ok c → rep = [5, 0, rsv])) ∧
        (proxy.Dial = none →
          (∀ e, env.netDial [116, 99, 112] target = .error e → rep = [5, 3, rsv]) ∧
          (∀ c, env.netDial [116, 99, 112] target = .ok c → rep = [5, 0, rsv]))) := by
  obtain ⟨n, ms, cmd, rsv, rest, hin, hn⟩ := Socks5Connect_reply_inv env proxy s rep hr
  obtain ⟨i, o, w⟩ := s
  simp only at hin
  subst hin
  obtain ⟨o2, w2, _, hrun⟩ := Socks5Connect_reply_greeting env proxy n ms _ o w rep hn hr
  rw [hrun] at hr ⊢
  obtain ⟨haddr, hrep, hdials, _⟩ := socks5Request_reply env proxy cmd rsv rest o2 w2 rep hr
  have hok := socks5Request_reply_ok env proxy cmd rsv rest o2 w2 rep hr
  have htype := From_ok_type env.parseIP Address.zero (Stream.ofInput rest) hok
  have hstr := String_known env.ipString (decodeAddress env rest) htype
  have htcp : ascii "tcp" = [116, 99, 112] := by decide
  refine ⟨n, ms, cmd, rsv, rest, decodeAddress env rest, _, rfl, hn, hok, rfl, htype, haddr,
    rfl, hstr, ?_, ?_⟩
  · intro hc
    rw [hdials, hrep, connect_not_CONNECT env proxy cmd _ hc]
    exact ⟨rfl, rfl⟩
  · intro hc
    subst hc
    rw [hdials, hrep, ← hstr, ← htcp]
    cases hd : proxy.dialFunc env (ascii "tcp")
        ((decodeAddress env rest).String env.ipString) with
    | error e =>
      rw [connect_dial_error env proxy _ e hd]
      refine ⟨rfl, ?_, ?_⟩
      · intro d hD
        have : proxy.dialFunc env = d := by simp [Proxy.dialFunc, hD]
        rw [this] at hd
        exact ⟨fun _ _ => rfl, fun c hc => (by rw [hd] at hc; cases hc)⟩
      · intro hD
        have : proxy.dialFunc env = env.netDial := by simp [Proxy.dialFunc, hD]
        rw [this] at hd
        exact ⟨fun _ _ => rfl, fun c hc => (by rw [hd] at hc; cases hc)⟩
    | ok c =>
      rw [connect_dial_ok env proxy _ c hd]
      refine ⟨rfl, ?_, ?_⟩
      · intro d hD
        have : proxy.dialFunc env = d := by simp [Proxy.dialFunc, hD]
        rw [this] at hd
        exact ⟨fun e he => (by rw [hd] at he; cases he), fun _ _ => rfl⟩
      · intro hD
        have : proxy.dialFunc env = env.netDial := by simp [Proxy.dialFunc, hD]
        rw [this] at hd
        exact ⟨fun e he => (by rw [hd] at he; cases he), fun _ _ => rfl⟩

theorem Socks5Connect_reply_code_witness :
    (Proxy.accepting.Socks5Connect Env.sample (Stream.ofInput clientConnect)).reply =
      some [5, 0, 9] ∧
    (Proxy.accepting.Socks5Connect Env.sample (Stream.ofInput clientConnect)).dials =
      [([116, 99, 112], [10, 0, 0, 1, 58, 56, 48])] ∧
    ∃ n ms cmd rsv rest addr target,
      (Stream.ofInput clientConnect).input = 5 :: n :: (ms ++ 5 :: cmd :: rsv :: rest) ∧
      ms.length = n ∧
      (Address.From Env.sample.parseIP Address.zero (Stream.ofInput rest)).1 = .ok ∧
      (Address.From Env.sample.parseIP Address.zero (Stream.ofInput rest)).2.1 = addr ∧
      (addr.AddressType = 1 ∨ addr.AddressType = 3 ∨ addr.AddressType = 4) ∧
      (Proxy.accepting.Socks5Connect Env.sample (Stream.ofInput clientConnect)).addr = addr ∧
      target =
        (if addr.AddressType = 1 then
           Env.sample.ipString addr.IP ++ [58] ++ ascii (toString addr.Port)
         else if addr.AddressType = 4 then
           [91] ++ Env.sample.ipString addr.IP ++ [93, 58] ++ ascii (toString addr.Port)
         else addr.DomainName ++ [58] ++ ascii (toString addr.Port)) ∧
      addr.String Env.sample.ipString = target ∧
      (cmd ≠ 1 → [5, 0, 9] = [5, 7, rsv] ∧
        (Proxy.accepting.Socks5Connect Env.sample (Stream.ofInput clientConnect)).dials = []) ∧
      (cmd = 1 →
        (Proxy.accepting.Socks5Connect Env.sample (Stream.ofInput clientConnect)).dials =
          [([116, 99, 112], target)] ∧
        (∀ d, Proxy.accepting.Dial = some d →
          (∀ e, d [116, 99, 112] target = .error e → [5, 0, 9] = [5, 3, rsv]) ∧
          (∀ c, d [116, 99, 112] target = .ok c → [5, 0, 9] = [5, 0, rsv])) ∧
        (Proxy.accepting.Dial = none →
          (∀ e, Env.sample.netDial [116, 99, 112] target = .error e → [5, 0, 9] = [5, 3, rsv]) ∧
          (∀ c, Env.sample.netDial [116, 99, 112] target = .ok c → [5, 0, 9] = [5, 0, rsv]))) :=
  ⟨by decide, by decide,
    Socks5Connect_reply_code Env.sample Proxy.accepting (Stream.ofInput clientConnect) [5, 0, 9]
      (by decide)⟩

/-- C3 fails as stated: with a client connection whose second `Write` fails
(the first one, of the method selection, succeeds), `Socks5Connect` reaches the
reply step with the reply `5, 3, 9`, the write of line 86 fails, the call
returns at line 87, and nothing at all follows the two bytes of the method
selection on the client connection. -/
theorem Socks5Connect_reply_cut_short :
    (Proxy.refusing.Socks5Connect Env.sample ⟨clientConnect, [], [none, some 0]⟩).reply =
      some [5, 3, 9] ∧
    (Proxy.refusing.Socks5Connect Env.sample ⟨clientConnect, [], [none, some 0]⟩).socket.output =
      [5, 0] ∧
    (Proxy.refusing.Socks5Connect Env.sample ⟨clientConnect, [], [none, some 0]⟩).socket.output ≠
      [5, 0] ++ ([5, 3, 9] ++ (decodeAddress Env.sample [1, 10, 0, 0, 1, 0, 80]).encode) := by
  decide

/-- C3 (as the code has it): in every run of `Socks5Connect` that reaches the
reply step and in which no `Write` on the client connection fails, the bytes
written after the two bytes of the method selection, up to the return of the
call or its hand-over to the relay (line 96), are 5, the reply code, the reserved
byte of the request header, and then the bytes `Address.To` writes for the
address decoded from the request: its type, then the length byte and the name or
the 4-byte or 16-byte IP, then the port, high byte first. The reply code is
whatever the reply holds, zero or not. -/
theorem Socks5Connect_reply_bytes (env : Env) (proxy : Proxy) (s : Stream) (rep : Bytes)
    (hr : (proxy.Socks5Connect env s).reply = some rep) (hall : allWritesOk s.wplan) :
    ∃ n ms cmd rsv rest code addr,
      s.input = 5 :: n :: (ms ++ 5 :: cmd :: rsv :: rest) ∧ ms.length = n ∧
      rep = [5, code, rsv] ∧
      (Address.From env.parseIP Address.zero (Stream.ofInput rest)).1 = .ok ∧
      (Address.From env.parseIP Address.zero (Stream.ofInput rest)).2.1 = addr ∧
      (proxy.Socks5Connect env s).socket.output =
        s.output ++ [5, 0] ++ ([5, code, rsv] ++ addr.encode) ∧
      addr.encode =
        addr.AddressType ::
          ((if addr.AddressType = 3 then (addr.DomainName.length % 256) :: addr.DomainName
            else if addr.AddressType = 1 then NetIP.To4 addr.IP
            else NetIP.To16 addr.IP) ++
           [(addr.Port % 65536).toNat / 256, (addr.Port % 65536).toNat % 256]) := by
  obtain ⟨n, ms, cmd, rsv, rest, hin, hn⟩ := Socks5Connect_reply_inv env proxy s rep hr
  obtain ⟨i, o, w⟩ := s
  simp only at hin hall
  subst hin
  obtain ⟨o2, w2, ho2, hrun⟩ := Socks5Connect_reply_greeting env proxy n ms _ o w rep hn hr
  obtain ⟨ho, hw2⟩ := ho2 hall
  rw [hrun] at hr ⊢
  obtain ⟨_, hrep, _, hout⟩ := socks5Request_reply env proxy cmd rsv rest o2 w2 rep hr
  have hok := socks5Request_reply_ok env proxy cmd rsv rest o2 w2 rep hr
  have htype := From_ok_type env.parseIP Address.zero (Stream.ofInput rest) hok
  refine ⟨n, ms, cmd, rsv, rest, _, decodeAddress env rest, rfl, hn, hrep, hok, rfl, ?_,
    encode_known _ htype⟩
  rw [hout hw2, ho, hrep]
  simp

theorem Socks5Connect_reply_bytes_witness :
    (Proxy.refusing.Socks5Connect Env.sample (Stream.ofInput clientConnect)).reply =
      some [5, 3, 9] ∧
    allWritesOk (Stream.ofInput clientConnect).wplan ∧
    (Proxy.refusing.Socks5Connect Env.sample (Stream.ofInput clientConnect)).socket.output =
      [5, 0, 5, 3, 9, 1, 10, 0, 0, 1, 0, 80] ∧
    ∃ n ms cmd rsv rest code addr,
      (Stream.ofInput clientConnect).input = 5 :: n :: (ms ++ 5 :: cmd :: rsv :: rest) ∧
      ms.length = n ∧ [5, 3, 9] = [5, code, rsv] ∧
      (Address.From Env.sample.parseIP Address.zero (Stream.ofInput rest)).1 = .ok ∧
      (Address.From Env.sample.parseIP Address.zero (Stream.ofInput rest)).2.1 = addr ∧
      (Proxy.refusing.Socks5Connect Env.sample (Stream.ofInput clientConnect)).socket.output =
        (Stream.ofInput clientConnect).output ++ [5, 0] ++ ([5, code, rsv] ++ addr.encode) ∧
      addr.encode =
        addr.AddressType ::
          ((if addr.AddressType = 3 then (addr.DomainName.length % 256) :: addr.DomainName
            else if addr.AddressType = 1 then NetIP.To4 addr.IP
            else NetIP.To16 addr.IP) ++
           [(addr.Port % 65536).toNat / 256, (addr.Port % 65536).toNat % 256]) :=
  ⟨by decide, fun x hx => (by cases hx), by decide,
    Socks5Connect_reply_bytes Env.sample Proxy.refusing (Stream.ofInput clientConnect)
      [5, 3, 9] (by decide) (fun x hx => (by cases hx))⟩

/-- The request phase on fewer than three bytes: the read of the header fails. -/
theorem socks5Request_short (env : Env) (proxy : Proxy) (rest o : Bytes)
    (w : List (Option Nat)) (h : rest.length < 3) :
    (proxy.socks5Request env ⟨rest, o, w⟩).err = some .ERR_READ_FAILED ∧
    (proxy.socks5Request env ⟨rest, o, w⟩).reply = none ∧
    (proxy.socks5Request env ⟨rest, o, w⟩).dials = [] ∧
    (proxy.socks5Request env ⟨rest, o, w⟩).socket.output = o := by
  have h3 : ¬ 3 ≤ rest.length := by omega
  unfold Proxy.socks5Request readFull
  simp only [h3, if_false]
  split_ifs <;> exact ⟨rfl, rfl, rfl, rfl⟩

/-- The request phase on a header whose version byte is not 5: the three bytes
are consumed and the call returns with `ERR_VERSION`. -/
theorem socks5Request_bad_version (env : Env) (proxy : Proxy) (v cmd rsv : Nat)
    (rest o : Bytes) (w : List (Option Nat)) (hv : v ≠ 5) :
    (proxy.socks5Request env ⟨v :: cmd :: rsv :: rest, o, w⟩).err = some .ERR_VERSION ∧
    (proxy.socks5Request env ⟨v :: cmd :: rsv :: rest, o, w⟩).reply = none ∧
    (proxy.socks5Request env ⟨v :: cmd :: rsv :: rest, o, w⟩).dials = [] ∧
    (proxy.socks5Request env ⟨v :: cmd :: rsv :: rest, o, w⟩).socket = ⟨rest, o, w⟩ := by
  unfold Proxy.socks5Request
  rw [readFull_three]
  simp only [List.getD_cons_zero, Socks5Version, ne_eq, hv, not_false_eq_true, if_true]
  exact ⟨rfl, rfl, rfl, rfl⟩

/-- The request phase on a version-5 header followed by bytes that decode: the
second byte is the command, the third is echoed in the reply, and the bytes
after them are the address. -/
theorem socks5Request_decoded (env : Env) (proxy : Proxy) (cmd rsv : Nat) (rest o : Bytes)
    (w : List (Option Nat))
    (hok : (Address.From env.parseIP Address.zero (Stream.ofInput rest)).1 = .ok) :
    (proxy.socks5Request env ⟨5 :: cmd :: rsv :: rest, o, w⟩).addr =
      (Address.From env.parseIP Address.zero (Stream.ofInput rest)).2.1 ∧
    (cmd ≠ 1 →
      (proxy.socks5Request env ⟨5 :: cmd :: rsv :: rest, o, w⟩).reply = some [5, 7, rsv] ∧
      (proxy.socks5Request env ⟨5 :: cmd :: rsv :: rest, o, w⟩).dials = []) ∧
    (cmd = 1 →
      ((proxy.socks5Request env ⟨5 :: cmd :: rsv :: rest, o, w⟩).reply = some [5, 0, rsv] ∨
       (proxy.socks5Request env ⟨5 :: cmd :: rsv :: rest, o, w⟩).reply = some [5, 3, rsv]) ∧
      (proxy.socks5Request env ⟨5 :: cmd :: rsv :: rest, o, w⟩).dials.length = 1) := by
  have hreach := socks5Request_reaches env proxy cmd rsv rest o w hok
  obtain ⟨haddr, _, hdials, _⟩ := socks5Request_reply env proxy cmd rsv rest o w _ hreach
  refine ⟨haddr, ?_, ?_⟩
  · intro hc
    rw [hreach, hdials, connect_not_CONNECT env proxy cmd _ hc]
    exact ⟨rfl, rfl⟩
  · intro hc
    subst hc
    rw [hreach, hdials]
    cases hd : proxy.dialFunc env (ascii "tcp")
        ((decodeAddress env rest).String env.ipString) with
    | error e =>
      rw [connect_dial_error env proxy _ e hd]
      exact ⟨Or.inr rfl, rfl⟩
    | ok c =>
      rw [connect_dial_ok env proxy _ c hd]
      exact ⟨Or.inl rfl, rfl⟩

/-- C4: on every input that starts with version 5, a count `n` and `n` method
bytes, `Socks5Connect` is the write of `(5, 0)` followed by the request phase on
exactly the bytes after the methods, and the run is the same whatever the `n`
method bytes are. When that first write does not fail, the output starts with
what was there before followed by 5, 0, and the bytes after the methods are
read as the request header: with fewer than three of them the call returns with
`ERR_READ_FAILED` having written nothing more; with three bytes whose first is
not 5 it returns with `ERR_VERSION`, having consumed the two greeting bytes, the
`n` methods and these three bytes and nothing else; with a first byte 5 the
bytes after the three are decoded as the address, the second byte is the command
(a command other than 1 gives the reply code 7 and no dial, the command 1 gives
one dial and the reply code 0 or 3) and the third byte is the one echoed in the
reply. -/
theorem Socks5Connect_methods_ignored (env : Env) (proxy : Proxy) (n : Nat)
    (ms rest o : Bytes) (w : List (Option Nat)) (hn : ms.length = n) :
    (proxy.Socks5Connect env ⟨5 :: n :: (ms ++ rest), o, w⟩ =
      match Stream.write ⟨rest, o, w⟩ [5, 0] with
      | (some _, s) => Run.early s .ERR_AUTH_FAILED
      | (none, s) => proxy.socks5Request env s) ∧
    (∀ ms2 : Bytes, ms2.length = n →
      proxy.Socks5Connect env ⟨5 :: n :: (ms2 ++ rest), o, w⟩ =
        proxy.Socks5Connect env ⟨5 :: n :: (ms ++ rest), o, w⟩) ∧
    (nextWriteOk w →
      proxy.Socks5Connect env ⟨5 :: n :: (ms ++ rest), o, w⟩ =
        proxy.socks5Request env ⟨rest, o ++ [5, 0], w.tail⟩ ∧
      (o ++ [5, 0]) <+: (proxy.Socks5Connect env ⟨5 :: n :: (ms ++ rest), o, w⟩).socket.output ∧
      (rest.length < 3 →
        (proxy.Socks5Connect env ⟨5 :: n :: (ms ++ rest), o, w⟩).err = some .ERR_READ_FAILED ∧
        (proxy.Socks5Connect env ⟨5 :: n :: (ms ++ rest), o, w⟩).reply = none ∧
        (proxy.Socks5Connect env ⟨5 :: n :: (ms ++ rest), o, w⟩).dials = [] ∧
        (proxy.Socks5Connect env ⟨5 :: n :: (ms ++ rest), o, w⟩).socket.output = o ++ [5, 0]) ∧
      (∀ v cmd rsv rest2, rest = v :: cmd :: rsv :: rest2 →
        (v ≠ 5 →
          (proxy.Socks5Connect env ⟨5 :: n :: (ms ++ rest), o, w⟩).err = some .ERR_VERSION ∧
          (proxy.Socks5Connect env ⟨5 :: n :: (ms ++ rest), o, w⟩).reply = none ∧
          (proxy.Socks5Connect env ⟨5 :: n :: (ms ++ rest), o, w⟩).dials = [] ∧
          (proxy.Socks5Connect env ⟨5 :: n :: (ms ++ rest), o, w⟩).socket =
            ⟨rest2, o ++ [5, 0], w.tail⟩) ∧
        (v = 5 →
          (∀ e, (Address.From env.parseIP Address.zero (Stream.ofInput rest2)).1 = .err e →
            (proxy.Socks5Connect env ⟨5 :: n :: (ms ++ rest), o, w⟩).err = some e ∧
            (proxy.Socks5Connect env ⟨5 :: n :: (ms ++ rest), o, w⟩).reply = none ∧
            (proxy.Socks5Connect env ⟨5 :: n :: (ms ++ rest), o, w⟩).dials = [] ∧
            (proxy.Socks5Connect env ⟨5 :: n :: (ms ++ rest), o, w⟩).socket.output =
              o ++ [5, 0]) ∧
          ((Address.From env.parseIP Address.zero (Stream.ofInput rest2)).1 = .ok →
            (proxy.Socks5Connect env ⟨5 :: n :: (ms ++ rest), o, w⟩).addr =
              (Address.From env.parseIP Address.zero (Stream.ofInput rest2)).2.1 ∧
            (cmd ≠ 1 →
              (proxy.Socks5Connect env ⟨5 :: n :: (ms ++ rest), o, w⟩).reply =
                some [5, 7, rsv] ∧
              (proxy.Socks5Connect env ⟨5 :: n :: (ms ++ rest), o, w⟩).dials = []) ∧
            (cmd = 1 →
              ((proxy.Socks5Connect env ⟨5 :: n :: (ms ++ rest), o, w⟩).reply =
                  some [5, 0, rsv] ∨
               (proxy.Socks5Connect env ⟨5 :: n :: (ms ++ rest), o, w⟩).reply =
                  some [5, 3, rsv]) ∧
              (proxy.Socks5Connect env ⟨5 :: n :: (ms ++ rest), o, w⟩).dials.length = 1))))) := by
  refine ⟨Socks5Connect_greeting env proxy n ms rest o w hn, ?_, ?_⟩
  · intro ms2 h2
    rw [Socks5Connect_greeting env proxy n ms rest o w hn,
      Socks5Connect_greeting env proxy n ms2 rest o w h2]
  · intro hw
    have h := Socks5Connect_greeting env proxy n ms rest o w hn
    rw [write_of_nextWriteOk _ _ _ _ hw] at h
    simp only at h
    rw [h]
    refine ⟨rfl, socks5Request_extends env proxy ⟨rest, o ++ [5, 0], w.tail⟩, ?_, ?_⟩
    · intro hlen
      exact socks5Request_short env proxy rest _ _ hlen
    · intro v cmd rsv rest2 hrest
      subst hrest
      refine ⟨fun hv => socks5Request_bad_version env proxy v cmd rsv rest2 _ _ hv, ?_⟩
      intro hv
      subst hv
      exact ⟨fun e he => socks5Request_bad_address env proxy cmd rsv rest2 _ _ e he,
        fun hok => socks5Request_decoded env proxy cmd rsv rest2 _ _ hok⟩

theorem Socks5Connect_methods_ignored_witness :
    (∀ ms2 : Bytes, ms2.length = 2 →
      Proxy.accepting.Socks5Connect Env.sample ⟨5 :: 2 :: (ms2 ++ bindRequest), [], []⟩ =
        Proxy.accepting.Socks5Connect Env.sample ⟨5 :: 2 :: ([0, 2] ++ bindRequest), [], []⟩) ∧
    Proxy.accepting.Socks5Connect Env.sample ⟨5 :: 2 :: ([0, 2] ++ bindRequest), [], []⟩ =
      Proxy.accepting.socks5Request Env.sample ⟨bindRequest, [] ++ [5, 0], [].tail⟩ ∧
    ([] ++ [5, 0]) <+:
      (Proxy.accepting.Socks5Connect Env.sample
        ⟨5 :: 2 :: ([0, 2] ++ bindRequest), [], []⟩).socket.output ∧
    (Proxy.accepting.Socks5Connect Env.sample
        ⟨5 :: 2 :: ([0, 2] ++ bindRequest), [], []⟩).addr =
      (Address.From Env.sample.parseIP Address.zero
        (Stream.ofInput [1, 10, 0, 0, 1, 0, 80])).2.1 ∧
    (Proxy.accepting.Socks5Connect Env.sample
        ⟨5 :: 2 :: ([0, 2] ++ bindRequest), [], []⟩).reply = some [5, 7, 9] ∧
    (Proxy.accepting.Socks5Connect Env.sample
        ⟨5 :: 2 :: ([0, 2] ++ bindRequest), [], []⟩).dials = [] ∧
    (Proxy.accepting.Socks5Connect Env.sample
        ⟨5 :: 2 :: ([0, 2] ++ bindRequest), [], []⟩).socket.output =
      [5, 0, 5, 7, 9, 1, 10, 0, 0, 1, 0, 80] := by
  have T := Socks5Connect_methods_ignored Env.sample Proxy.accepting 2 [0, 2] bindRequest
    [] [] rfl
  have hw : nextWriteOk [] := fun k hk => by cases hk
  obtain ⟨h1, h2, _, h4⟩ := T.2.2 hw
  obtain ⟨_, h5⟩ := h4 5 2 9 [1, 10, 0, 0, 1, 0, 80] rfl
  obtain ⟨_, h6⟩ := h5 rfl
  obtain ⟨h7, h8, _⟩ := h6 (by decide)
  obtain ⟨h9, h10⟩ := h8 (by decide)
  exact ⟨T.2.1, h1, h2, h7, h9, h10, by decide⟩

/-! ## The filtering listener -/

/-- The loop of `Filter.Accept`: when the results of the wrapped listener are `pre`, then `r`, then
`post`, every result of `pre` being a connection without error that the
predicate rejects and `r` being an error, a nil connection or a connection the
predicate accepts, `Filter.acceptLoop` returns `r`; the `Close` calls it made are
one for each connection of `pre`, in order, and nothing else; the wrapped
listener is left with `post`; and a non-nil connection returned without error
satisfies the predicate. -/
theorem acceptLoop_first (pred : Nat → Bool) (pre post : List AcceptResult)
    (r : AcceptResult) (closed : List Nat)
    (hpre : ∀ x ∈ pre, x.rejected pred) (hr : r.stops pred) :
    Filter.acceptLoop pred (pre ++ r :: post) closed =
      some (r, post, closed ++ pre.filterMap (fun x => x.conn)) ∧
    (pre.filterMap (fun x => x.conn)).length = pre.length ∧
    (∀ c ∈ pre.filterMap (fun x => x.conn), pred c = false) ∧
    (r.err = none → ∀ c, r.conn = some c → pred c = true) := by
  induction pre generalizing closed with
  | nil =>
    refine ⟨?_, rfl, by simp, ?_⟩
    · rcases hr with h | h | ⟨c, hc, hp⟩
      · simp [Filter.acceptLoop, h]
      · by_cases he : r.err = none <;> simp [Filter.acceptLoop, h, he]
      · by_cases he : r.err = none <;> simp [Filter.acceptLoop, hc, hp, he]
    · intro he c hc
      rcases hr with h | h | ⟨c2, hc2, hp⟩
      · exact absurd he h
      · rw [h] at hc; cases hc
      · rw [hc2] at hc; cases hc; exact hp
  | cons x pre ih =>
    obtain ⟨hxe, c, hxc, hxp⟩ := hpre x (List.mem_cons_self _ _)
    obtain ⟨h1, h2, h3, h4⟩ := ih (closed ++ [c]) (fun y hy => hpre y (List.mem_cons_of_mem _ hy))
    refine ⟨?_, ?_, ?_, h4⟩
    · show Filter.acceptLoop pred (x :: (pre ++ r :: post)) closed = _
      rw [Filter.acceptLoop]
      simp only [hxe, hxc, hxp, ne_eq, not_true_eq_false, if_false, Bool.false_eq_true]
      rw [h1]
      simp [List.filterMap_cons, hxc]
    · simp [List.filterMap_cons, hxc, h2]
    · intro d hd
      simp only [List.filterMap_cons, hxc, List.mem_cons] at hd
      rcases hd with rfl | hd
      · exact hxp
      · exact h3 d hd

/-- C5: when the results of the wrapped listener are `pre`, then `r`, then
`post`, every result of `pre` being a connection without error that the
predicate rejects and `r` being the first result that is an error, a nil
connection or a connection the predicate accepts, `Filter.Accept` returns `r`;
the `Close` calls it made are one for each connection of `pre`, in order, and
nothing else; each of those connections is rejected by the predicate; the
wrapped listener is left with `post`; and a non-nil connection returned without
error satisfies the predicate. -/
theorem Filter_Accept_first (pred : Nat → Bool) (pre post : List AcceptResult)
    (r : AcceptResult) (closed : List Nat)
    (hpre : ∀ x ∈ pre, x.rejected pred) (hr : r.stops pred) :
    Filter.Accept ⟨pre ++ r :: post, pred⟩ closed =
      some (r, ⟨post, pred⟩, closed ++ pre.filterMap (fun x => x.conn)) ∧
    (pre.filterMap (fun x => x.conn)).length = pre.length ∧
    (∀ c ∈ pre.filterMap (fun x => x.conn), pred c = false) ∧
    (r.err = none → ∀ c, r.conn = some c → pred c = true) := by
  obtain ⟨h1, h2, h3, h4⟩ := acceptLoop_first pred pre post r closed hpre hr
  refine ⟨?_, h2, h3, h4⟩
  simp only [Filter.Accept, h1]

theorem Filter_Accept_first_witness :
    Filter.Accept ⟨outsiders ++ insider :: [⟨some 4, none⟩], onlyEight⟩ [] =
      some (insider, ⟨[⟨some 4, none⟩], onlyEight⟩,
        [] ++ outsiders.filterMap (fun x => x.conn)) ∧
    (outsiders.filterMap (fun x => x.conn)).length = outsiders.length ∧
    (∀ c ∈ outsiders.filterMap (fun x => x.conn), onlyEight c = false) ∧
    (insider.err = none → ∀ c, insider.conn = some c → onlyEight c = true) :=
  Filter_Accept_first onlyEight outsiders [⟨some 4, none⟩] insider []
    (by
      intro x hx
      simp only [outsiders, List.mem_cons, List.mem_singleton, List.not_mem_nil, or_false] at hx
      rcases hx with rfl | rfl
      · exact ⟨rfl, 3, rfl, by decide⟩
      · exact ⟨rfl, 5, rfl, by decide⟩)
    (Or.inr (Or.inr ⟨8, rfl, by decide⟩))

/-- Every result either stops the loop or is passed over. -/
theorem stops_or_rejected (pred : Nat → Bool) (r : AcceptResult) :
    r.stops pred ∨ r.rejected pred := by
  unfold AcceptResult.stops AcceptResult.rejected
  cases he : r.err with
  | some e => exact Or.inl (Or.inl (by simp))
  | none =>
    cases hc : r.conn with
    | none => exact Or.inl (Or.inr (Or.inl rfl))
    | some c =>
      cases hp : pred c with
      | true => exact Or.inl (Or.inr (Or.inr ⟨c, rfl, hp⟩))
      | false => exact Or.inr ⟨rfl, c, rfl, hp⟩

/-- Every sequence of results that holds a stopping result splits at its first
stopping result. -/
theorem split_at_first_stop (pred : Nat → Bool) (rs : List AcceptResult)
    (h : ∃ r ∈ rs, r.stops pred) :
    ∃ pre r post, rs = pre ++ r :: post ∧ (∀ x ∈ pre, x.rejected pred) ∧ r.stops pred := by
  induction rs with
  | nil => obtain ⟨r, hr, _⟩ := h; cases hr
  | cons x rs ih =>
    rcases stops_or_rejected pred x with hx | hx
    · exact ⟨[], x, rs, rfl, by simp, hx⟩
    · obtain ⟨r, hr, hs⟩ := h
      have hne : r ≠ x := by
        intro heq
        subst heq
        obtain ⟨he, c, hc, hp⟩ := hx
        rcases hs with h1 | h1 | ⟨c2, hc2, hp2⟩
        · exact h1 he
        · rw [h1] at hc; cases hc
        · rw [hc2] at hc; cases hc; rw [hp] at hp2; cases hp2
      have hmem : r ∈ rs := by
        rcases List.mem_cons.mp hr with h1 | h1
        · exact absurd h1 hne
        · exact h1
      obtain ⟨pre, r2, post, heq, hpre, hr2⟩ := ih ⟨r, hmem, hs⟩
      refine ⟨x :: pre, r2, post, by rw [heq]; rfl, ?_, hr2⟩
      intro y hy
      rcases List.mem_cons.mp hy with h1 | h1
      · rw [h1]; exact hx
      · exact hpre y h1

/-! ## The connection server: `Serve` and its listener -/

theorem trackListener_untrack (server : Server) (listener : Nat) :
    listener ∈ (server.trackListener listener false).2.closeCalls ∧
    listener ∉ (server.trackListener listener false).2.listeners := by
  simp [Server.trackListener]

/-- The accept loop returns as soon as `Accept` fails with an error that is not
temporary. -/
theorem acceptLoop_returns (events : List AcceptEvent) (server : Server)
    (h : ∃ e, AcceptEvent.failure e ∈ events) :
    (Server.acceptLoop server events).isSome = true := by
  induction events generalizing server with
  | nil => obtain ⟨e, he⟩ := h; cases he
  | cons ev rest ih =>
    have hrest : (∀ e, ev ≠ AcceptEvent.failure e) → ∃ e, AcceptEvent.failure e ∈ rest := by
      intro hne
      obtain ⟨e, he⟩ := h
      rcases List.mem_cons.mp he with h1 | h1
      · exact absurd h1.symm (hne e)
      · exact ⟨e, h1⟩
    cases ev with
    | conn c => exact ih _ (hrest (fun e h => by cases h))
    | temporary => exact ih _ (hrest (fun e h => by cases h))
    | failure e =>
      unfold Server.acceptLoop
      split_ifs <;> rfl
    | envClose => exact ih _ (hrest (fun e h => by cases h))
    | envTrack l t => exact ih _ (hrest (fun e h => by cases h))

/-- C7 (as the code has it): a call of `Serve` on a server that is already
closed returns `ErrServerClosed` at once and leaves the state as it was, so the
listener is not tracked and no `Close` was called on it; a call on a server that
is not closed, however it comes back (an accept error, `ErrServerClosed` after a
concurrent `Close`, or the panic on a nil base context), has called `Close` on
its listener and has removed it from the tracked set; and such a call does come
back once `Accept` fails with an error that is not temporary. -/
theorem Serve_unregisters (server : Server) (listener : Nat) (events : List AcceptEvent) :
    (server.closed = true →
      server.Serve listener events = some (.err .ErrServerClosed, server)) ∧
    (server.closed = false → ∀ r s, server.Serve listener events = some (r, s) →
      listener ∈ s.closeCalls ∧ listener ∉ s.listeners) ∧
    ((∃ e, AcceptEvent.failure e ∈ events) → (server.Serve listener events).isSome = true) := by
  refine ⟨?_, ?_, ?_⟩
  · intro hc
    simp [Server.Serve, Server.trackListener, Server.isClosed, hc]
  · intro hc r s hs
    unfold Server.Serve at hs
    simp only [Server.trackListener, Server.isClosed, hc, if_true, Bool.false_eq_true,
      if_false] at hs
    split_ifs at hs with hnil
    · simp only [Option.some.injEq, Prod.mk.injEq] at hs
      rw [← hs.2]
      simp
    · split at hs
      · cases hs
      · simp only [Option.some.injEq, Prod.mk.injEq] at hs
        rw [← hs.2]
        simp
  · intro hf
    unfold Server.Serve
    cases ht : server.trackListener listener true with
    | mk ok s1 =>
      cases ok with
      | false => rfl
      | true =>
        simp only
        split_ifs
        · rfl
        · have := acceptLoop_returns events { s1 with open_ := s1.open_ + 1 } hf
          cases hl : Server.acceptLoop { s1 with open_ := s1.open_ + 1 } events with
          | none => rw [hl] at this; cases this
          | some p => rfl

theorem Serve_unregisters_witness :
    (Server.afterClose.closed = true ∧
      Server.afterClose.Serve 1 [.conn 4, .failure .EOF] =
        some (.err .ErrServerClosed, Server.afterClose)) ∧
    (Server.fresh.closed = false ∧
      ∃ r s, Server.fresh.Serve 1 [.conn 4, .envClose, .failure .EOF] = some (r, s) ∧
        1 ∈ s.closeCalls ∧ 1 ∉ s.listeners) ∧
    (Server.fresh.Serve 1 [.conn 4, .envClose, .failure .EOF]).isSome = true :=
  ⟨⟨rfl, (Serve_unregisters Server.afterClose 1 [.conn 4, .failure .EOF]).1 rfl⟩,
   ⟨rfl, _, _, rfl,
    (Serve_unregisters Server.fresh 1 [.conn 4, .envClose, .failure .EOF]).2.1 rfl _ _ rfl⟩,
   (Serve_unregisters Server.fresh 1 [.conn 4, .envClose, .failure .EOF]).2.2
    ⟨.EOF, by simp⟩⟩

/-- C7 fails as stated: on the server that `Close` has closed, `Serve` of
listener 1 returns `ErrServerClosed` and no `Close` call was ever made on that
listener. -/
theorem Serve_closed_server_leaves_listener_open :
    ∃ r s, Server.afterClose.Serve 1 [] = some (r, s) ∧ r = .err .ErrServerClosed ∧
      ¬ (1 ∈ s.closeCalls ∧ 1 ∉ s.listeners) :=
  ⟨.err .ErrServerClosed, Server.afterClose, rfl, rfl, by
    simp [Server.afterClose, Server.fresh, Server.Close, Server.visited]⟩

/-! ## The connection server: the open counter -/

theorem count_set_add {α : Type} [DecidableEq α] (l : List α) (i : Nat) (a b x : α)
    (h : l[i]? = some a) :
    (l.set i b).count x + (if a = x then 1 else 0) = l.count x + (if b = x then 1 else 0) := by
  induction l generalizing i with
  | nil => simp at h
  | cons y ys ih =>
    cases i with
    | zero =>
      simp only [List.getElem?_cons_zero, Option.some.injEq] at h
      subst h
      simp only [List.set_cons_zero, List.count_cons, beq_iff_eq]
      omega
    | succ k =>
      simp only [List.getElem?_cons_succ] at h
      have := ih k h
      simp only [List.set_cons_succ, List.count_cons]
      omega

theorem step_counted (s t : Sys) (a : Action) (h : s.step a = some t)
    (hs : s.open_ = (s.counted : Int)) : t.open_ = (t.counted : Int) := by
  unfold Sys.counted at hs ⊢
  cases a with
  | callServe =>
    simp only [Sys.step, Option.some.injEq] at h
    subst h
    simp [hs, List.count_append]
  | track i =>
    simp only [Sys.step] at h
    split_ifs at h with h1 h2
    · simp only [Option.some.injEq] at h
      subst h
      have := count_set_add s.serves i .called .returned .accepting h1
      simp only [reduceCtorEq, if_false, Nat.add_zero] at this
      simp only [this, hs]
    · simp only [Option.some.injEq] at h
      subst h
      have := count_set_add s.serves i .called .tracked .accepting h1
      simp only [reduceCtorEq, if_false, Nat.add_zero] at this
      simp only [this, hs]
  | count i =>
    simp only [Sys.step] at h
    split_ifs at h with h1
    simp only [Option.some.injEq] at h
    subst h
    have := count_set_add s.serves i .tracked .accepting .accepting h1
    simp only [reduceCtorEq, if_false, if_true, Nat.add_zero] at this
    simp only [this, hs]
    push_cast
    ring
  | dispatch i =>
    simp only [Sys.step] at h
    split_ifs at h with h1
    simp only [Option.some.injEq] at h
    subst h
    simp [hs, List.count_append]
  | serveReturn i =>
    simp only [Sys.step] at h
    split_ifs at h with h1
    simp only [Option.some.injEq] at h
    subst h
    have := count_set_add s.serves i .accepting .returned .accepting h1
    simp only [reduceCtorEq, if_false, if_true, Nat.add_zero] at this
    simp only [hs, ← this]
    push_cast
    ring
  | handlerStart j =>
    simp only [Sys.step] at h
    split_ifs at h with h1
    simp only [Option.some.injEq] at h
    subst h
    have := count_set_add s.handlers j .dispatched .running .running h1
    simp only [reduceCtorEq, if_false, if_true, Nat.add_zero] at this
    simp only [this, hs]
    push_cast
    ring
  | handlerReturn j =>
    simp only [Sys.step] at h
    split_ifs at h with h1
    simp only [Option.some.injEq] at h
    subst h
    have := count_set_add s.handlers j .running .returned .running h1
    simp only [reduceCtorEq, if_false, if_true, Nat.add_zero] at this
    simp only [hs, ← this]
    push_cast
    ring
  | close =>
    simp only [Sys.step, Option.some.injEq] at h
    subst h
    exact hs

/-- In every state a new server can reach, the counter is the number of calls
of `Serve` in their accept loop plus the number of handler goroutines between
line 87 and their return; in particular it is never negative. It does not count
a call of `Serve` before line 65 nor a handler goroutine before line 87. -/
theorem open_counts (acts : List Action) (s : Sys) (h : Sys.init.run acts = some s) :
    s.open_ = (s.counted : Int) ∧ 0 ≤ s.open_ := by
  have key : ∀ (acts : List Action) (s0 s : Sys), s0.open_ = (s0.counted : Int) →
      s0.run acts = some s → s.open_ = (s.counted : Int) := by
    intro acts
    induction acts with
    | nil =>
      intro s0 s h0 hr
      simp only [Sys.run, Option.some.injEq] at hr
      subst hr
      exact h0
    | cons a rest ih =>
      intro s0 s h0 hr
      simp only [Sys.run] at hr
      cases hst : s0.step a with
      | none => rw [hst] at hr; cases hr
      | some s1 =>
        rw [hst] at hr
        exact ih s1 s (step_counted s0 s1 a hst h0) hr
  have h1 := key acts Sys.init s (by simp [Sys.init, Sys.counted]) h
  exact ⟨h1, by rw [h1]; exact Int.natCast_nonneg _⟩

theorem open_counts_witness :
    ∃ s, Sys.init.run earlyReturn = some s ∧ s.open_ = (s.counted : Int) ∧ 0 ≤ s.open_ :=
  ⟨_, rfl, open_counts earlyReturn _ rfl⟩

/-- C8 (fails on the code): a new server reaches, by the interleaving
`earlyReturn`, a state in which the counter is 0 while a handler goroutine that
`Serve` has dispatched has not yet returned (it has not even run line 87), and
in that state the poll of `Shutdown` finds the counter at 0 and returns nil. -/
theorem open_zero_with_pending_handler :
    ∃ s, Sys.init.run earlyReturn = some s ∧ s.open_ = 0 ∧
      HandlerPc.dispatched ∈ s.handlers ∧ s.shutdownReturnsNil = true :=
  ⟨_, rfl, rfl, by decide, rfl⟩

/-! ## The relay -/

theorem Relay.Inv_start (b : Bool) : (Relay.start b).Inv := by
  simp [Relay.Inv, Relay.start]

theorem Relay.Inv_step (r t : Relay) (a : RelayAction) (h : r.step a = some t)
    (hi : r.Inv) : t.Inv := by
  obtain ⟨h1, h2, h3, h4, h5⟩ := hi
  cases a with
  | cancel =>
    simp only [Relay.step, Option.some.injEq] at h
    subst h
    exact ⟨h1, fun hc => ⟨rfl, (h2 hc).2⟩, h3, h4, h5⟩
  | copyEnds x =>
    simp only [Relay.step] at h
    split_ifs at h with hx
    simp only [Option.some.injEq] at h
    subst h
    cases x
    · simp only [Relay.copy] at hx
      refine ⟨h1, h2, h3, h4, ?_⟩
      intro hc
      have := h5 hc
      simp only [Relay.setCopy, hx, reduceCtorEq, if_false] at this ⊢
      exact this
    · simp only [Relay.copy] at hx
      refine ⟨h1, h2, h3, h4, ?_⟩
      intro hc
      have := h5 hc
      simp only [Relay.setCopy, hx, reduceCtorEq, if_false] at this ⊢
      exact this
  | handOver x =>
    simp only [Relay.step] at h
    split_ifs at h with hx
    obtain ⟨hr, hc, hw⟩ := hx
    simp only [Option.some.injEq] at h
    subst h
    have hpos := h4 hr
    have hs := h5 hc
    cases x
    · simp only [Relay.copy] at hw
      simp only [hw, reduceCtorEq, if_false] at hs
      refine ⟨by simp only [Relay.setCopy]; push_cast; omega, ?_, ?_, ?_, ?_⟩
      · intro hcl; simp only [Relay.setCopy] at hcl; rw [hc] at hcl; cases hcl
      · intro hret
        simp only [Relay.setCopy, decide_eq_true_eq] at hret ⊢
        exact Or.inr hret
      · intro hret
        simp only [Relay.setCopy, decide_eq_false_iff_not] at hret ⊢
        omega
      · intro _
        simp only [Relay.setCopy, if_true]
        omega
    · simp only [Relay.copy] at hw
      simp only [hw, reduceCtorEq, if_false] at hs
      refine ⟨by simp only [Relay.setCopy]; push_cast; omega, ?_, ?_, ?_, ?_⟩
      · intro hcl; simp only [Relay.setCopy] at hcl; rw [hc] at hcl; cases hcl
      · intro hret
        simp only [Relay.setCopy, decide_eq_true_eq] at hret ⊢
        exact Or.inr hret
      · intro hret
        simp only [Relay.setCopy, decide_eq_false_iff_not] at hret ⊢
        omega
      · intro _
        simp only [Relay.setCopy, if_true]
        omega
  | onDone =>
    simp only [Relay.step] at h
    split_ifs at h with hx
    obtain ⟨hr, hd⟩ := hx
    simp only [Option.some.injEq] at h
    subst h
    exact ⟨h1, fun _ => ⟨hd, rfl⟩, fun _ => Or.inl rfl, fun hf => (by cases hf),
      fun hf => (by cases hf)⟩
  | releaseClosed x =>
    simp only [Relay.step] at h
    split_ifs at h with hx
    obtain ⟨hc, hw⟩ := hx
    simp only [Option.some.injEq] at h
    subst h
    cases x
    · refine ⟨h1, h2, h3, h4, ?_⟩
      intro hf
      simp only [Relay.setCopy] at hf
      rw [hc] at hf; cases hf
    · refine ⟨h1, h2, h3, h4, ?_⟩
      intro hf
      simp only [Relay.setCopy] at hf
      rw [hc] at hf; cases hf

theorem Relay.Inv_run (acts : List RelayAction) (r t : Relay) (h : r.run acts = some t)
    (hi : r.Inv) : t.Inv := by
  induction acts generalizing r with
  | nil =>
    simp only [Relay.run, Option.some.injEq] at h
    subst h
    exact hi
  | cons a rest ih =>
    simp only [Relay.run] at h
    cases hst : r.step a with
    | none => rw [hst] at h; cases h
    | some r1 =>
      rw [hst] at h
      exact ih r1 h (Relay.Inv_step r r1 a hst hi)

/-- C9: in every state that the relay reaches, from its start with `open`
succeeded, in which the handler has returned: the context is done and `done`
has been closed, or exactly two sends on `done` have completed; `done` has been
closed or both copy goroutines have received and returned; and a copy goroutine
that is blocked at `<-done` can take its receive at once and return. The handler
stays returned in every later state, so this holds at the return and ever
after. -/
theorem relay_returns (b : Bool) (acts : List RelayAction) (r : Relay)
    (h : (Relay.start b).run acts = some r) (hret : r.returned = true) :
    ((r.ctxDone = true ∧ r.closed = true) ∨ r.sends = 2) ∧
    (r.closed = true ∨ (r.toSource = .returned ∧ r.toTarget = .returned)) ∧
    (∀ x, r.copy x = .waiting →
      ∃ t, r.step (.releaseClosed x) = some t ∧ t.copy x = .returned) := by
  obtain ⟨h1, h2, h3, h4, h5⟩ := Relay.Inv_run acts _ r h (Relay.Inv_start b)
  cases hc : r.closed with
  | true =>
    refine ⟨Or.inl ⟨(h2 hc).1, rfl⟩, Or.inl rfl, ?_⟩
    intro x hx
    refine ⟨r.setCopy x .returned, by simp [Relay.step, hc, hx], ?_⟩
    cases x <;> rfl
  | false =>
    have hc0 : r.c = 0 := by
      rcases h3 hret with h | h
      · rw [hc] at h; cases h
      · exact h
    have hs := h5 hc
    have hs2 : r.sends = 2 := by omega
    have hboth : r.toSource = .returned ∧ r.toTarget = .returned := by
      rw [hs2] at hs
      constructor
      · by_contra hne
        simp only [hne, if_false] at hs
        split_ifs at hs <;> omega
      · by_contra hne
        simp only [hne, if_false] at hs
        split_ifs at hs <;> omega
    refine ⟨Or.inr hs2, Or.inr hboth, ?_⟩
    intro x hx
    cases x
    · simp only [Relay.copy, hboth.1, reduceCtorEq] at hx
    · simp only [Relay.copy, hboth.2, reduceCtorEq] at hx

theorem relay_returns_witness :
    ((cancelledState.ctxDone = true ∧ cancelledState.closed = true) ∨ cancelledState.sends = 2) ∧
    (cancelledState.closed = true ∨
      (cancelledState.toSource = .returned ∧ cancelledState.toTarget = .returned)) ∧
    (∀ x, cancelledState.copy x = .waiting →
      ∃ t, cancelledState.step (.releaseClosed x) = some t ∧ t.copy x = .returned) :=
  relay_returns false cancelledRun cancelledState rfl rfl

/-! ## Addresses from text -/

/-- C10 (fails on the code): `NewAddressFromAddr` reads the port with
`strconv.ParseInt(portStr, 10, 16)`, a signed 16-bit range. For the well-formed
`example.com:40000` it returns the range error, whatever `net.ParseIP` says of
the host; the largest port it takes is 32767; and for `example.com:-1` it
returns an address whose `Port` is -1. -/
theorem NewAddressFromAddr_port_range :
    (∀ parseIP : Bytes → NetIP,
      NewAddressFromAddr parseIP (ascii "tcp") (ascii "example.com:40000") = .error .ErrRange) ∧
    (∀ parseIP : Bytes → NetIP,
      NewAddressFromAddr parseIP (ascii "tcp") (ascii "example.com:65535") = .error .ErrRange) ∧
    (∀ parseIP : Bytes → NetIP,
      NewAddressFromAddr parseIP (ascii "tcp") (ascii "example.com:32768") = .error .ErrRange) ∧
    NewAddressFromAddr (fun _ => []) (ascii "tcp") (ascii "example.com:32767") =
      .ok ⟨ascii "tcp", ascii "example.com", [], 32767, AddressType.DomainName⟩ ∧
    NewAddressFromAddr (fun _ => []) (ascii "tcp") (ascii "example.com:-1") =
      .ok ⟨ascii "tcp", ascii "example.com", [], -1, AddressType.DomainName⟩ := by
  refine ⟨fun _ => ?_, fun _ => ?_, fun _ => ?_, ?_, ?_⟩ <;> rfl

/-- Whatever the text, the value `ParseInt10 s 16` returns is a signed 16-bit
number. -/
theorem ParseInt10_16_bounds (s : Bytes) (v : Int) (h : ParseInt10 s 16 = .ok v) :
    -32768 ≤ v ∧ v ≤ 32767 := by
  unfold ParseInt10 at h
  by_cases h0 : s = []
  · simp [h0] at h
  · simp only [h0, if_false] at h
    generalize (if s.headD 0 = 43 ∨ s.headD 0 = 45 then s.drop 1 else s) = digits at h
    cases hp : ParseUint10 digits 16 with
    | mk un e =>
      rw [hp] at h
      have key : (if (!decide (s.headD 0 = 45)) = true ∧ un ≥ 2 ^ (16 - 1) then
            (Except.error Error.ErrRange : Except Error Int)
          else if decide (s.headD 0 = 45) = true ∧ un > 2 ^ (16 - 1) then .error .ErrRange
          else .ok (if decide (s.headD 0 = 45) = true then -(un : Int) else (un : Int))) =
          .ok v := by
        cases e with
        | none => exact h
        | some e => cases e <;> first | exact h | cases h
      by_cases hneg : s.headD 0 = 45
      · simp only [hneg, decide_True, Bool.not_true, Bool.false_eq_true, false_and, if_false,
          true_and, if_true] at key
        split_ifs at key with h2
        simp only [Except.ok.injEq] at key
        norm_num at h2
        subst key
        constructor <;> omega
      · simp only [hneg, decide_False, Bool.not_false, true_and, Bool.false_eq_true, false_and,
          if_false] at key
        split_ifs at key with h1
        simp only [Except.ok.injEq] at key
        norm_num at h1
        subst key
        constructor <;> omega

/-- Every address `NewAddressFromAddr` returns has its port in the signed
16-bit range: no port from 32768 to 65535 is ever accepted. -/
theorem NewAddressFromAddr_port_bounds (parseIP : Bytes → NetIP) (network addr : Bytes)
    (a : Address) (h : NewAddressFromAddr parseIP network addr = .ok a) :
    -32768 ≤ a.Port ∧ a.Port ≤ 32767 := by
  unfold NewAddressFromAddr at h
  split at h
  · cases h
  · split at h
    · cases h
    · rename_i port hp
      simp only [Except.ok.injEq] at h
      have hport : a.Port = port := by
        rw [← h]
        unfold NewAddressFromHostPort
        split_ifs <;> rfl
      rw [hport]
      exact ParseInt10_16_bounds _ _ hp

end socket
